import Mathlib

/-!
Shallow embedding of the gocryptotrader market-data cache (the `ticker` and
`orderbook` packages) and of the rule-based alerting engine (the `events`
package), together with proofs about the store upsert/lookup contract and the
event registration/evaluation machinery.

Go maps are modelled as association lists (`alookup` / `aset`), Go slices as
`List`, Go `float64` as `ℚ` (the code only compares, multiplies and tests
against zero), `time.Time` as an abstract `Nat` clock supplied by the caller,
and Go errors as values.  The `ticker` and `orderbook` packages contain two
textually identical copies of the same nested-map store; the store is embedded
once, generically in the snapshot type `σ`, and instantiated twice.
-/

set_option maxHeartbeats 1000000

attribute [local semireducible] Rat.mul

/-- Modelled from the spec: `assets.AssetType` (the assets package is not part
of the synced sources) is a string-backed market-segment identifier such as
`"SPOT"`, used directly as a map key. -/
abbrev AssetType := String

/-- Modelled from the spec: the `pair` package's `CurrencyPair` (not part of
the synced sources) — an immutable instrument identifier made of a base
(first) and quote (second) currency, compared by value. -/
structure CurrencyPair where
  FirstCurrency : String
  SecondCurrency : String
deriving DecidableEq, Repr

/-- Modelled from the spec: `p.Pair().String()`, the display string of a
currency pair (concatenation of the two legs; delimiter formatting is out of
scope).  It is the empty string exactly when both legs are unset. -/
def CurrencyPair.Pair (p : CurrencyPair) : String :=
  p.FirstCurrency ++ p.SecondCurrency

/-- Go map read `m[k]`: first binding for `k`, if any. -/
def alookup {β : Type} : List (String × β) → String → Option β
  | [], _ => none
  | e :: es, k => if e.1 = k then some e.2 else alookup es k

/-- Go map write `m[k] = v`: replace the binding for `k`, else add one. -/
def aset {β : Type} : List (String × β) → String → β → List (String × β)
  | [], k, v => [(k, v)]
  | e :: es, k, v => if e.1 = k then (k, v) :: es else e :: aset es k v

/-- The three-level nested map used by both stores:
base currency → quote currency → asset type → snapshot. -/
abbrev NestedMap (σ : Type) := List (String × List (String × List (AssetType × σ)))

/-- One element of the package-level slice: `ticker.Ticker` (field `Price`)
and `orderbook.Orderbook` (field `Orderbook`) both pair the nested snapshot
map (here `Data`) with the exchange name. -/
structure ExchEntry (σ : Type) where
  Data : NestedMap σ
  ExchangeName : String
deriving DecidableEq

/-- The package-level slice `Tickers []Ticker` / `Orderbooks []Orderbook`. -/
abbrev Store (σ : Type) := List (ExchEntry σ)

/-- `GetTickerByExchange` / `GetOrderbookByExchange`: linear scan of the slice
returning the first entry whose `ExchangeName` matches. -/
def getByExchange {σ : Type} (s : Store σ) (exch : String) : Option (ExchEntry σ) :=
  s.find? (fun y => decide (y.ExchangeName = exch))

/-- `FirstCurrencyExists`: some entry named `exch` has `cur` as a key of its
nested map. -/
def firstCurrencyExists {σ : Type} (s : Store σ) (exch cur : String) : Bool :=
  s.any (fun y => decide (y.ExchangeName = exch) && (alookup y.Data cur).isSome)

/-- `SecondCurrencyExists`: some entry named `exch` has both legs of `p`
present in its nested map. -/
def secondCurrencyExists {σ : Type} (s : Store σ) (exch first second : String) : Bool :=
  s.any (fun y => decide (y.ExchangeName = exch) &&
    (match alookup y.Data first with
     | some a => (alookup a second).isSome
     | none => false))

/-- `GetTicker` / `GetOrderbook`: exchange scan, then the two existence probes
in order, then the triple-indexed read (each missing level reading as the Go
zero value, `zero`). -/
def getSnapshot {σ : Type} (zero : σ) (errExchange errPrimary errSecondary : String)
    (s : Store σ) (exch : String) (p : CurrencyPair) (assetType : AssetType) :
    Except String σ :=
  match getByExchange s exch with
  | none => .error errExchange
  | some t =>
    if !firstCurrencyExists s exch p.FirstCurrency then .error errPrimary
    else if !secondCurrencyExists s exch p.FirstCurrency p.SecondCurrency then .error errSecondary
    else .ok ((alookup ((alookup ((alookup t.Data p.FirstCurrency).getD [])
        p.SecondCurrency).getD []) assetType).getD zero)

/-- `CreateNewTicker` / `CreateNewOrderbook`: append a fresh entry holding a
singleton nested map. -/
def createNew {σ : Type} (s : Store σ) (exch : String) (p : CurrencyPair)
    (snap : σ) (assetType : AssetType) : Store σ :=
  s ++ [⟨[(p.FirstCurrency, [(p.SecondCurrency, [(assetType, snap)])])], exch⟩]

/-- Mutation through the pointer returned by the by-exchange scan: the nested
map of the first entry named `exch` is updated in place (the entry itself is a
copy in the Go code, but its nested map is a shared reference). -/
def updateFirst {σ : Type} : Store σ → String → (NestedMap σ → NestedMap σ) → Store σ
  | [], _, _ => []
  | y :: ys, exch, f =>
    if y.ExchangeName = exch then { y with Data := f y.Data } :: ys
    else y :: updateFirst ys exch f

/-- `ProcessTicker` / `ProcessOrderbook` after snapshot preprocessing: if the
exchange is unseen, create its entry; else if the first currency exists,
assign a fresh singleton assetType map at `[first][second]`; else assign a
fresh singleton map at `[first]`. -/
def processSnapshot {σ : Type} (s : Store σ) (exch : String) (p : CurrencyPair)
    (snap : σ) (assetType : AssetType) : Store σ :=
  match getByExchange s exch with
  | none => createNew s exch p snap assetType
  | some _ =>
    if firstCurrencyExists s exch p.FirstCurrency then
      updateFirst s exch (fun mp =>
        aset mp p.FirstCurrency
          (aset ((alookup mp p.FirstCurrency).getD []) p.SecondCurrency
            [(assetType, snap)]))
    else
      updateFirst s exch (fun mp =>
        aset mp p.FirstCurrency [(p.SecondCurrency, [(assetType, snap)])])

namespace ticker

/-- `ticker.Price`: the ticker snapshot. -/
structure Price where
  Pair : CurrencyPair
  LastUpdated : Nat
  CurrencyPair : String
  Last : ℚ
  High : ℚ
  Low : ℚ
  Bid : ℚ
  Ask : ℚ
  Volume : ℚ
  PriceATH : ℚ
deriving DecidableEq

/-- The Go zero value of `ticker.Price`. -/
def zeroPrice : Price :=
  { Pair := ⟨"", ""⟩, LastUpdated := 0, CurrencyPair := "", Last := 0, High := 0,
    Low := 0, Bid := 0, Ask := 0, Volume := 0, PriceATH := 0 }

def ErrTickerForExchangeNotFound : String := "Ticker for exchange does not exist."
def ErrPrimaryCurrencyNotFound : String := "Error primary currency for ticker not found."
def ErrSecondaryCurrencyNotFound : String := "Error secondary currency for ticker not found."

/-- The preprocessing `ProcessTicker` applies to the incoming snapshot before
storing: back-fill `Pair` if unset, stamp `CurrencyPair` and `LastUpdated`
(`now` standing for `time.Now()`). -/
def tickerPrep (p : CurrencyPair) (now : Nat) (tickerNew : Price) : Price :=
  let t1 := if tickerNew.Pair.Pair = "" then { tickerNew with Pair := p } else tickerNew
  { t1 with CurrencyPair := p.Pair, LastUpdated := now }

/-- `ticker.ProcessTicker` (upsert). -/
def ProcessTicker (s : Store Price) (exchangeName : String) (p : CurrencyPair)
    (tickerNew : Price) (tickerType : AssetType) (now : Nat) : Store Price :=
  processSnapshot s exchangeName p (tickerPrep p now tickerNew) tickerType

/-- `ticker.GetTicker` (lookup). -/
def GetTicker (s : Store Price) (exchange : String) (p : CurrencyPair)
    (tickerType : AssetType) : Except String Price :=
  getSnapshot zeroPrice ErrTickerForExchangeNotFound ErrPrimaryCurrencyNotFound
    ErrSecondaryCurrencyNotFound s exchange p tickerType

end ticker

namespace orderbook

/-- `orderbook.Item`: one depth level. -/
structure Item where
  Amount : ℚ
  Price : ℚ
  ID : Int
deriving DecidableEq

/-- `orderbook.Base`: the orderbook snapshot. -/
structure Base where
  Pair : CurrencyPair
  CurrencyPair : String
  Bids : List Item
  Asks : List Item
  LastUpdated : Nat
  AssetType : AssetType
deriving DecidableEq

/-- The Go zero value of `orderbook.Base`. -/
def zeroBase : Base :=
  { Pair := ⟨"", ""⟩, CurrencyPair := "", Bids := [], Asks := [], LastUpdated := 0,
    AssetType := "" }

def ErrOrderbookForExchangeNotFound : String := "Ticker for exchange does not exist."
def ErrPrimaryCurrencyNotFoundOb : String := "Error primary currency for orderbook not found."
def ErrSecondaryCurrencyNotFoundOb : String := "Error secondary currency for orderbook not found."

/-- The preprocessing `ProcessOrderbook` applies to the incoming snapshot
before storing (mirror of `tickerPrep`). -/
def orderbookPrep (p : CurrencyPair) (now : Nat) (orderbookNew : Base) : Base :=
  let b1 := if orderbookNew.Pair.Pair = "" then { orderbookNew with Pair := p } else orderbookNew
  { b1 with CurrencyPair := p.Pair, LastUpdated := now }

/-- `orderbook.ProcessOrderbook` (upsert). -/
def ProcessOrderbook (s : Store Base) (exchangeName : String) (p : CurrencyPair)
    (orderbookNew : Base) (orderbookType : AssetType) (now : Nat) : Store Base :=
  processSnapshot s exchangeName p (orderbookPrep p now orderbookNew) orderbookType

/-- `orderbook.GetOrderbook` (lookup). -/
def GetOrderbook (s : Store Base) (exchange : String) (p : CurrencyPair)
    (orderbookType : AssetType) : Except String Base :=
  getSnapshot zeroBase ErrOrderbookForExchangeNotFound ErrPrimaryCurrencyNotFoundOb
    ErrSecondaryCurrencyNotFoundOb s exchange p orderbookType

end orderbook

namespace events

def ItemPrice : String := "PRICE"
def ItemOrderbook : String := "ORDERBOOK"

def ConditionGreaterThan : String := ">"
def ConditionGreaterThanOrEqual : String := ">="
def ConditionLessThan : String := "<"
def ConditionLessThanOrEqual : String := "<="
def ConditionIsEqual : String := "=="

def ActionSMSNotify : String := "SMS"
def ActionConsolePrint : String := "CONSOLE_PRINT"
def ActionTest : String := "ACTION_TEST"

/-- `events.ConditionParams`. -/
structure ConditionParams where
  Condition : String
  Price : ℚ
  CheckBids : Bool
  CheckBidsAndAsks : Bool
  OrderbookAmount : ℚ
deriving DecidableEq

/-- `events.Event` (the registry stores pointers to these; the `ID` field is a
Go `int`). -/
structure Event where
  ID : Int
  Exchange : String
  Item : String
  Condition : ConditionParams
  Pair : CurrencyPair
  Asset : AssetType
  Action : String
  Executed : Bool
deriving DecidableEq

/-- The Go zero value of `events.Event`. -/
def defaultEvent : Event :=
  { ID := 0, Exchange := "", Item := "", Condition := ⟨"", 0, false, false, 0⟩,
    Pair := ⟨"", ""⟩, Asset := "", Action := "", Executed := false }

/-- The four validation errors of the events package (`errInvalidItem`,
`errInvalidCondition`, `errInvalidAction`, `errExchangeDisabled`). -/
inductive EventError where
  | invalidItem
  | invalidCondition
  | invalidAction
  | exchangeDisabled
deriving DecidableEq

def errInvalidItem : EventError := .invalidItem
def errInvalidCondition : EventError := .invalidCondition
def errInvalidAction : EventError := .invalidAction
def errExchangeDisabled : EventError := .exchangeDisabled

/-- Modelled from the spec: one entry of the configuration's exchange list
(the config package is not part of the synced sources); only the name and the
enabled flag are consulted by the events package. -/
structure ExchangeConfig where
  Name : String
  Enabled : Bool
deriving DecidableEq

/-- Modelled from the spec: a message pushed to the notification collaborator
(`base.Event` of the communications packages, which are not part of the synced
sources); only the fields the events package sets are modelled (`EventType`
stands for the Go field `Type`, a Lean keyword). -/
structure CommsEvent where
  EventType : String
  TradeDetails : String
deriving DecidableEq

/-- Modelled from the spec: `common.StringToUpper` (ASCII upper-casing),
written over the character list so it evaluates by reduction. -/
def StringToUpper (s : String) : String := ⟨s.data.map Char.toUpper⟩

/-- Modelled from the spec: `common.StringToLower` (ASCII lower-casing). -/
def StringToLower (s : String) : String := ⟨s.data.map Char.toLower⟩

/-- Split of a character list at every occurrence of `sep`. -/
def splitOnCharList (sep : Char) : List Char → List (List Char)
  | [] => [[]]
  | c :: rest =>
    let r := splitOnCharList sep rest
    if c = sep then [] :: r else (c :: r.headD []) :: r.tail

/-- Modelled from the spec: `common.SplitStrings`; the events package only
calls it with the single-character separator `","`, so it is modelled as the
split at every comma. -/
def SplitStrings (s : String) (_sep : String) : List String :=
  (splitOnCharList ',' s.data).map fun cs => (⟨cs⟩ : String)

/-- Modelled from the spec: `common.StringContains`; the events package only
calls it with the separator `","`, so it is modelled as comma membership. -/
def StringContains (s : String) (_substr : String) : Bool := s.data.contains ','

/-- `events.IsValidExchange`: the exchange appears, case-insensitively, in the
configuration and is enabled. -/
def IsValidExchange (cfg : List ExchangeConfig) (exchange : String) : Bool :=
  let e := StringToLower exchange
  cfg.any (fun x => StringToLower x.Name = e && x.Enabled)

/-- `events.IsValidCondition`. -/
def IsValidCondition (condition : String) : Bool :=
  condition = ConditionGreaterThan || condition = ConditionGreaterThanOrEqual ||
  condition = ConditionLessThan || condition = ConditionLessThanOrEqual ||
  condition = ConditionIsEqual

/-- `events.IsValidItem`. -/
def IsValidItem (item : String) : Bool :=
  let i := StringToUpper item
  i = ItemPrice || i = ItemOrderbook

/-- `events.IsValidAction` (the simple-token check; unused by `IsValidEvent`,
which inlines its own action handling). -/
def IsValidAction (action : String) : Bool :=
  let a := StringToUpper action
  a = ActionSMSNotify || a = ActionConsolePrint || a = ActionTest

/-- `events.IsValidEvent`: the validation run by `Add` before inserting.
Returns the validation error, if any, together with the comms events pushed
while validating (the code pushes a typed comms event for a compound action
whose target is not `"ALL"`). -/
def IsValidEvent (cfg : List ExchangeConfig) (exchange item : String)
    (condition : ConditionParams) (action : String) :
    Option EventError × List CommsEvent :=
  let exchangeU := StringToUpper exchange
  let itemU := StringToUpper item
  let actionU := StringToUpper action
  if !IsValidExchange cfg exchangeU then (some errExchangeDisabled, [])
  else if !IsValidItem itemU then (some errInvalidItem, [])
  else if !IsValidCondition condition.Condition then (some errInvalidCondition, [])
  else if itemU = ItemPrice && decide (condition.Price = 0) then
    (some errInvalidCondition, [])
  else if itemU = ItemOrderbook && decide (condition.OrderbookAmount = 0) then
    (some errInvalidAction, [])
  else if StringContains actionU "," then
    let parts := SplitStrings actionU ","
    if parts.headD "" ≠ ActionSMSNotify then (some errInvalidAction, [])
    else if parts.getD 1 "" ≠ "ALL" then
      (none, [{ EventType := parts.getD 1 "", TradeDetails := "" }])
    else (none, [])
  else if actionU ≠ ActionConsolePrint && actionU ≠ ActionTest then
    (some errInvalidAction, [])
  else (none, [])

/-- `events.Add`: validate, then append a new `Event` whose `ID` is `0` for an
empty registry and `len(Events) + 1` otherwise; returns the id/error pair, the
new registry, and the comms events pushed during validation. -/
def Add (cfg : List ExchangeConfig) (events : List Event) (exchange item : String)
    (condition : ConditionParams) (currencyPair : CurrencyPair) (asset : AssetType)
    (action : String) : (Int × Option EventError) × List Event × List CommsEvent :=
  match IsValidEvent cfg exchange item condition action with
  | (some err, pushes) => ((0, some err), events, pushes)
  | (none, pushes) =>
    let id : Int := if events.length = 0 then 0 else (events.length : Int) + 1
    let e : Event :=
      { ID := id, Exchange := exchange, Item := item, Condition := condition,
        Pair := currencyPair, Asset := asset, Action := action, Executed := false }
    ((id, none), events ++ [e], pushes)

/-- `events.GetEventCounter`: total events and executed events. -/
def GetEventCounter (events : List Event) : Nat × Nat :=
  (events.length, (events.filter (·.Executed)).length)

/-- `(*Event).ExecuteAction`: dispatches the action (log line or comms push)
and always reports success; the dispatch itself is counted by the callers
below. -/
def ExecuteAction (_e : Event) : Bool := true

/-- Spec-side comparison predicate: does `actual` compare against `threshold`
under the given operator string? -/
def conditionHolds (operator : String) (actual threshold : ℚ) : Bool :=
  if operator = ConditionGreaterThan then decide (actual > threshold)
  else if operator = ConditionGreaterThanOrEqual then decide (actual ≥ threshold)
  else if operator = ConditionLessThan then decide (actual < threshold)
  else if operator = ConditionLessThanOrEqual then decide (actual ≤ threshold)
  else if operator = ConditionIsEqual then decide (actual = threshold)
  else false

/-- `(*Event).processCondition`: the five-way switch; on a match it calls
`ExecuteAction` and returns its result.  The second component counts the
`ExecuteAction` invocations performed by the call. -/
def processCondition (e : Event) (actual threshold : ℚ) : Bool × Nat :=
  if e.Condition.Condition = ConditionGreaterThan then
    (if actual > threshold then (ExecuteAction e, 1) else (false, 0))
  else if e.Condition.Condition = ConditionGreaterThanOrEqual then
    (if actual ≥ threshold then (ExecuteAction e, 1) else (false, 0))
  else if e.Condition.Condition = ConditionLessThan then
    (if actual < threshold then (ExecuteAction e, 1) else (false, 0))
  else if e.Condition.Condition = ConditionLessThanOrEqual then
    (if actual ≤ threshold then (ExecuteAction e, 1) else (false, 0))
  else if e.Condition.Condition = ConditionIsEqual then
    (if actual = threshold then (ExecuteAction e, 1) else (false, 0))
  else (false, 0)

/-- `(*Event).processTicker`: look the ticker up; on lookup failure or a zero
last price report no trigger; otherwise compare the last price against the
threshold price.  The second component counts `ExecuteAction` invocations. -/
def processTicker (ts : Store ticker.Price) (e : Event) : Bool × Nat :=
  let targetPrice := e.Condition.Price
  match ticker.GetTicker ts e.Exchange e.Pair e.Asset with
  | .error _ => (false, 0)
  | .ok t =>
    let lastPrice := t.Last
    if lastPrice = 0 then (false, 0)
    else processCondition e lastPrice targetPrice

/-- The loop body of `processOrderbook` over one side of the book: fold the
per-level check, or-ing the successes and summing the dispatches. -/
def scanSide (e : Event) (levels : List orderbook.Item) : Bool × Nat :=
  levels.foldl
    (fun acc it =>
      let r := processCondition e (it.Amount * it.Price) e.Condition.OrderbookAmount
      (acc.1 || r.1, acc.2 + r.2))
    (false, 0)

/-- `(*Event).processOrderbook`: look the orderbook up; on failure report no
trigger; otherwise scan the bids when `CheckBids || CheckBidsAndAsks` and the
asks when `!CheckBids || CheckBidsAndAsks`, comparing `amount * price` of each
level against the threshold notional.  The second component counts
`ExecuteAction` invocations. -/
def processOrderbook (os : Store orderbook.Base) (e : Event) : Bool × Nat :=
  match orderbook.GetOrderbook os e.Exchange e.Pair e.Asset with
  | .error _ => (false, 0)
  | .ok ob =>
    let bres :=
      if e.Condition.CheckBids || e.Condition.CheckBidsAndAsks then scanSide e ob.Bids
      else (false, 0)
    let ares :=
      if !e.Condition.CheckBids || e.Condition.CheckBidsAndAsks then scanSide e ob.Asks
      else (false, 0)
    (bres.1 || ares.1, bres.2 + ares.2)

/-- `(*Event).CheckCondition`. -/
def CheckCondition (ts : Store ticker.Price) (os : Store orderbook.Base)
    (e : Event) : Bool × Nat :=
  if e.Item = ItemPrice then processTicker ts e else processOrderbook os e

/-- One tick of `EventManger`'s loop: every event still pending is evaluated
and, on success, marked executed; executed events are left untouched. -/
def managerTick (ts : Store ticker.Price) (os : Store orderbook.Base)
    (events : List Event) : List Event :=
  events.map (fun e =>
    if !e.Executed then
      (if (CheckCondition ts os e).1 then { e with Executed := true } else e)
    else e)

/-- The engine run: `managerRun stores events n` is the registry before tick
`n`, where `stores n` is the pair of store states the cache holds during tick
`n`. -/
def managerRun (stores : Nat → Store ticker.Price × Store orderbook.Base)
    (events : List Event) : Nat → List Event
  | 0 => events
  | n + 1 => managerTick (stores n).1 (stores n).2 (managerRun stores events n)

/-- Whether `EventManger` calls `CheckCondition` on the event at index `i`
during a tick that starts from registry `events`: the outer counter guard must
pass and the event must still be pending. -/
def evaluatesEvent (events : List Event) (i : Nat) : Bool :=
  let c := GetEventCounter events
  decide (0 < c.1) && decide (c.2 ≠ c.1) && !(events.getD i defaultEvent).Executed

end events

/-! ### Association-list lemmas -/

theorem alookup_aset_self {β : Type} (l : List (String × β)) (k : String) (v : β) :
    alookup (aset l k v) k = some v := by
  induction l with
  | nil => simp [aset, alookup]
  | cons e es ih =>
    by_cases h : e.1 = k
    · simp [aset, h, alookup]
    · simp [aset, h, alookup, ih]

theorem alookup_aset_ne {β : Type} (l : List (String × β)) (k k' : String) (v : β)
    (h : k' ≠ k) : alookup (aset l k v) k' = alookup l k' := by
  have hk : ¬ k = k' := fun hh => h hh.symm
  induction l with
  | nil => simp [aset, alookup, hk]
  | cons e es ih =>
    by_cases he : e.1 = k
    · subst he
      simp [aset, alookup, hk]
    · simp [aset, he, alookup, ih]

/-! ### Store probe lemmas -/

theorem getByExchange_cons_pos {σ : Type} (y : ExchEntry σ) (ys : List (ExchEntry σ))
    (exch : String) (h : y.ExchangeName = exch) :
    getByExchange (y :: ys) exch = some y :=
  List.find?_cons_of_pos _ (by simp [h])

theorem getByExchange_cons_neg {σ : Type} (y : ExchEntry σ) (ys : List (ExchEntry σ))
    (exch : String) (h : ¬ y.ExchangeName = exch) :
    getByExchange (y :: ys) exch = getByExchange ys exch :=
  List.find?_cons_of_neg _ (by simp [h])

theorem getByExchange_eq_none_iff {σ : Type} (s : Store σ) (exch : String) :
    getByExchange s exch = none ↔ ∀ y ∈ s, y.ExchangeName ≠ exch := by
  simp [getByExchange, List.find?_eq_none]

theorem getByExchange_mem_name {σ : Type} {s : Store σ} {exch : String} {y : ExchEntry σ}
    (h : getByExchange s exch = some y) : y ∈ s ∧ y.ExchangeName = exch := by
  refine ⟨List.mem_of_find?_eq_some h, ?_⟩
  have := List.find?_some h
  simpa using this

theorem getByExchange_append_singleton {σ : Type} (s : Store σ) (y : ExchEntry σ)
    (exch : String) :
    getByExchange (s ++ [y]) exch =
      (getByExchange s exch).or (if y.ExchangeName = exch then some y else none) := by
  induction s with
  | nil =>
    by_cases h : y.ExchangeName = exch
    · rw [List.nil_append, getByExchange_cons_pos _ _ _ h, if_pos h]
      rfl
    · rw [List.nil_append, getByExchange_cons_neg _ _ _ h, if_neg h]
      rfl
  | cons z zs ih =>
    by_cases hz : z.ExchangeName = exch
    · rw [List.cons_append, getByExchange_cons_pos _ _ _ hz, getByExchange_cons_pos _ _ _ hz]
      rfl
    · rw [List.cons_append, getByExchange_cons_neg _ _ _ hz, getByExchange_cons_neg _ _ _ hz]
      exact ih

theorem firstCurrencyExists_append_singleton {σ : Type} (s : Store σ) (y : ExchEntry σ)
    (exch cur : String) :
    firstCurrencyExists (s ++ [y]) exch cur =
      (firstCurrencyExists s exch cur ||
        (decide (y.ExchangeName = exch) && (alookup y.Data cur).isSome)) := by
  simp [firstCurrencyExists, List.any_append]

theorem secondCurrencyExists_append_singleton {σ : Type} (s : Store σ) (y : ExchEntry σ)
    (exch first second : String) :
    secondCurrencyExists (s ++ [y]) exch first second =
      (secondCurrencyExists s exch first second ||
        (decide (y.ExchangeName = exch) &&
          (match alookup y.Data first with
           | some a => (alookup a second).isSome
           | none => false))) := by
  simp [secondCurrencyExists, List.any_append]

theorem updateFirst_names {σ : Type} (s : Store σ) (exch : String)
    (f : NestedMap σ → NestedMap σ) :
    (updateFirst s exch f).map (·.ExchangeName) = s.map (·.ExchangeName) := by
  induction s with
  | nil => rfl
  | cons y ys ih =>
    by_cases h : y.ExchangeName = exch
    · simp [updateFirst, h]
    · simp [updateFirst, h, ih]

theorem getByExchange_updateFirst_self {σ : Type} (s : Store σ) (exch : String)
    (f : NestedMap σ → NestedMap σ) :
    getByExchange (updateFirst s exch f) exch =
      (getByExchange s exch).map (fun y => { y with Data := f y.Data }) := by
  induction s with
  | nil => rfl
  | cons y ys ih =>
    by_cases h : y.ExchangeName = exch
    · rw [updateFirst, if_pos h, getByExchange_cons_pos ⟨f y.Data, y.ExchangeName⟩ ys exch h,
        getByExchange_cons_pos y ys exch h]
      rfl
    · rw [updateFirst, if_neg h, getByExchange_cons_neg y (updateFirst ys exch f) exch h,
        getByExchange_cons_neg y ys exch h]
      exact ih

theorem getByExchange_updateFirst_ne {σ : Type} (s : Store σ) (exch exch' : String)
    (f : NestedMap σ → NestedMap σ) (h : exch' ≠ exch) :
    getByExchange (updateFirst s exch f) exch' = getByExchange s exch' := by
  induction s with
  | nil => rfl
  | cons y ys ih =>
    by_cases hy : y.ExchangeName = exch
    · have hy' : ¬ y.ExchangeName = exch' := fun hh => h (hh ▸ hy)
      rw [updateFirst, if_pos hy, getByExchange_cons_neg ⟨f y.Data, y.ExchangeName⟩ ys exch' hy',
        getByExchange_cons_neg y ys exch' hy']
    · by_cases hy' : y.ExchangeName = exch'
      · rw [updateFirst, if_neg hy, getByExchange_cons_pos y (updateFirst ys exch f) exch' hy',
          getByExchange_cons_pos y ys exch' hy']
      · rw [updateFirst, if_neg hy, getByExchange_cons_neg y (updateFirst ys exch f) exch' hy',
          getByExchange_cons_neg y ys exch' hy']
        exact ih

theorem firstCurrencyExists_updateFirst_ne {σ : Type} (s : Store σ) (exch exch' : String)
    (cur : String) (f : NestedMap σ → NestedMap σ) (h : exch' ≠ exch) :
    firstCurrencyExists (updateFirst s exch f) exch' cur =
      firstCurrencyExists s exch' cur := by
  induction s with
  | nil => rfl
  | cons y ys ih =>
    simp only [firstCurrencyExists] at ih
    by_cases hy : y.ExchangeName = exch
    · have hy' : ¬ y.ExchangeName = exch' := fun hh => h (hh ▸ hy)
      rw [updateFirst, if_pos hy]
      simp only [firstCurrencyExists, List.any_cons]
      simp [hy']
    · rw [updateFirst, if_neg hy]
      simp only [firstCurrencyExists, List.any_cons]
      rw [ih]

theorem secondCurrencyExists_updateFirst_ne {σ : Type} (s : Store σ) (exch exch' : String)
    (first second : String) (f : NestedMap σ → NestedMap σ) (h : exch' ≠ exch) :
    secondCurrencyExists (updateFirst s exch f) exch' first second =
      secondCurrencyExists s exch' first second := by
  induction s with
  | nil => rfl
  | cons y ys ih =>
    simp only [secondCurrencyExists] at ih
    by_cases hy : y.ExchangeName = exch
    · have hy' : ¬ y.ExchangeName = exch' := fun hh => h (hh ▸ hy)
      rw [updateFirst, if_pos hy]
      simp only [secondCurrencyExists, List.any_cons]
      simp [hy']
    · rw [updateFirst, if_neg hy]
      simp only [secondCurrencyExists, List.any_cons]
      rw [ih]

theorem firstCurrencyExists_eq_false_of_absent {σ : Type} (s : Store σ) (exch cur : String)
    (h : ∀ y ∈ s, y.ExchangeName ≠ exch) : firstCurrencyExists s exch cur = false := by
  rw [firstCurrencyExists]
  refine List.any_eq_false.mpr ?_
  intro y hy
  simp [h y hy]

theorem secondCurrencyExists_eq_false_of_absent {σ : Type} (s : Store σ)
    (exch first second : String) (h : ∀ y ∈ s, y.ExchangeName ≠ exch) :
    secondCurrencyExists s exch first second = false := by
  rw [secondCurrencyExists]
  refine List.any_eq_false.mpr ?_
  intro y hy
  simp [h y hy]

theorem names_nodup_tail_absent {σ : Type} {exch : String} (z : ExchEntry σ)
    (zs : List (ExchEntry σ)) (hn : ((z :: zs).map (·.ExchangeName)).Nodup)
    (hz : z.ExchangeName = exch) : ∀ y ∈ zs, y.ExchangeName ≠ exch := by
  intro y hy hcontra
  have h1 : (∀ x ∈ zs, ¬ x.ExchangeName = z.ExchangeName) ∧
      (zs.map (·.ExchangeName)).Nodup := by
    simpa using hn
  exact h1.1 y hy (hcontra.trans hz.symm)

theorem firstCurrencyExists_of_find {σ : Type} {s : Store σ} {exch : String}
    {y : ExchEntry σ} (hn : (s.map (·.ExchangeName)).Nodup)
    (hf : getByExchange s exch = some y) (cur : String) :
    firstCurrencyExists s exch cur = (alookup y.Data cur).isSome := by
  induction s with
  | nil => exact absurd hf (by simp [getByExchange])
  | cons z zs ih =>
    by_cases hz : z.ExchangeName = exch
    · rw [getByExchange_cons_pos z zs exch hz] at hf
      rw [show y = z from (Option.some.inj hf).symm]
      have habs := names_nodup_tail_absent z zs hn hz
      rw [firstCurrencyExists, List.any_cons]
      have htail : firstCurrencyExists zs exch cur = false :=
        firstCurrencyExists_eq_false_of_absent zs exch cur habs
      rw [firstCurrencyExists] at htail
      rw [htail]
      simp [hz]
    · rw [getByExchange_cons_neg z zs exch hz] at hf
      have hn' : (zs.map (·.ExchangeName)).Nodup := (List.nodup_cons.mp (by simpa using hn)).2
      have := ih hn' hf
      rw [firstCurrencyExists, List.any_cons]
      rw [firstCurrencyExists] at this
      rw [this]
      simp [hz]

theorem secondCurrencyExists_of_find {σ : Type} {s : Store σ} {exch : String}
    {y : ExchEntry σ} (hn : (s.map (·.ExchangeName)).Nodup)
    (hf : getByExchange s exch = some y) (first second : String) :
    secondCurrencyExists s exch first second =
      (match alookup y.Data first with
       | some a => (alookup a second).isSome
       | none => false) := by
  induction s with
  | nil => exact absurd hf (by simp [getByExchange])
  | cons z zs ih =>
    by_cases hz : z.ExchangeName = exch
    · rw [getByExchange_cons_pos z zs exch hz] at hf
      rw [show y = z from (Option.some.inj hf).symm]
      have habs := names_nodup_tail_absent z zs hn hz
      rw [secondCurrencyExists, List.any_cons]
      have htail : secondCurrencyExists zs exch first second = false :=
        secondCurrencyExists_eq_false_of_absent zs exch first second habs
      rw [secondCurrencyExists] at htail
      rw [htail]
      simp [hz]
    · rw [getByExchange_cons_neg z zs exch hz] at hf
      have hn' : (zs.map (·.ExchangeName)).Nodup := (List.nodup_cons.mp (by simpa using hn)).2
      have := ih hn' hf
      rw [secondCurrencyExists, List.any_cons]
      rw [secondCurrencyExists] at this
      rw [this]
      simp [hz]

theorem alookup_singleton {β : Type} (k k' : String) (v : β) :
    alookup [(k, v)] k' = if k = k' then some v else none := by
  simp [alookup]

theorem processSnapshot_of_found {σ : Type} {s : Store σ} {exch : String}
    {y : ExchEntry σ} (hg : getByExchange s exch = some y) (p : CurrencyPair)
    (snap : σ) (tt : AssetType) :
    processSnapshot s exch p snap tt =
      if firstCurrencyExists s exch p.FirstCurrency then
        updateFirst s exch (fun mp =>
          aset mp p.FirstCurrency
            (aset ((alookup mp p.FirstCurrency).getD []) p.SecondCurrency [(tt, snap)]))
      else
        updateFirst s exch (fun mp =>
          aset mp p.FirstCurrency [(p.SecondCurrency, [(tt, snap)])]) := by
  unfold processSnapshot
  rw [hg]

theorem processSnapshot_of_absent {σ : Type} {s : Store σ} {exch : String}
    (hg : getByExchange s exch = none) (p : CurrencyPair) (snap : σ) (tt : AssetType) :
    processSnapshot s exch p snap tt = createNew s exch p snap tt := by
  unfold processSnapshot
  rw [hg]

theorem getSnapshot_eq_ok {σ : Type} (zero : σ) (e1 e2 e3 : String) {s : Store σ}
    {exch : String} {y : ExchEntry σ} (p : CurrencyPair) (tt : AssetType)
    (hg : getByExchange s exch = some y)
    (h1 : firstCurrencyExists s exch p.FirstCurrency = true)
    (h2 : secondCurrencyExists s exch p.FirstCurrency p.SecondCurrency = true) :
    getSnapshot zero e1 e2 e3 s exch p tt =
      .ok ((alookup ((alookup ((alookup y.Data p.FirstCurrency).getD [])
        p.SecondCurrency).getD []) tt).getD zero) := by
  unfold getSnapshot
  rw [hg]
  simp [h1, h2]

theorem getSnapshot_error_exchange {σ : Type} (zero : σ) (e1 e2 e3 : String)
    {s : Store σ} {exch : String} (p : CurrencyPair) (tt : AssetType)
    (h : getByExchange s exch = none) :
    getSnapshot zero e1 e2 e3 s exch p tt = .error e1 := by
  unfold getSnapshot
  rw [h]

theorem getSnapshot_error_primary {σ : Type} (zero : σ) (e1 e2 e3 : String)
    {s : Store σ} {exch : String} {y : ExchEntry σ} (p : CurrencyPair) (tt : AssetType)
    (hg : getByExchange s exch = some y)
    (h1 : firstCurrencyExists s exch p.FirstCurrency = false) :
    getSnapshot zero e1 e2 e3 s exch p tt = .error e2 := by
  unfold getSnapshot
  rw [hg]
  simp [h1]

theorem getSnapshot_error_secondary {σ : Type} (zero : σ) (e1 e2 e3 : String)
    {s : Store σ} {exch : String} {y : ExchEntry σ} (p : CurrencyPair) (tt : AssetType)
    (hg : getByExchange s exch = some y)
    (h1 : firstCurrencyExists s exch p.FirstCurrency = true)
    (h2 : secondCurrencyExists s exch p.FirstCurrency p.SecondCurrency = false) :
    getSnapshot zero e1 e2 e3 s exch p tt = .error e3 := by
  unfold getSnapshot
  rw [hg]
  simp [h1, h2]

theorem getSnapshot_ok_inv {σ : Type} {zero : σ} {e1 e2 e3 : String} {s : Store σ}
    {exch : String} {p : CurrencyPair} {tt : AssetType} {v : σ}
    (h : getSnapshot zero e1 e2 e3 s exch p tt = .ok v) :
    ∃ y, getByExchange s exch = some y ∧
      firstCurrencyExists s exch p.FirstCurrency = true ∧
      secondCurrencyExists s exch p.FirstCurrency p.SecondCurrency = true ∧
      v = (alookup ((alookup ((alookup y.Data p.FirstCurrency).getD [])
        p.SecondCurrency).getD []) tt).getD zero := by
  unfold getSnapshot at h
  cases hg : getByExchange s exch with
  | none =>
    rw [hg] at h
    exact absurd h (by simp)
  | some y =>
    rw [hg] at h
    refine ⟨y, rfl, ?_⟩
    by_cases h1 : firstCurrencyExists s exch p.FirstCurrency
    · by_cases h2 : secondCurrencyExists s exch p.FirstCurrency p.SecondCurrency
      · refine ⟨h1, h2, ?_⟩
        simp only [h1, h2, Bool.not_true, Bool.false_eq_true, if_false] at h
        exact (Except.ok.inj h).symm
      · rw [Bool.not_eq_true] at h2
        simp [h1, h2] at h
    · rw [Bool.not_eq_true] at h1
      simp [h1] at h

theorem nodup_names_updateFirst {σ : Type} (s : Store σ) (exch : String)
    (f : NestedMap σ → NestedMap σ) (hn : (s.map (·.ExchangeName)).Nodup) :
    ((updateFirst s exch f).map (·.ExchangeName)).Nodup := by
  rw [updateFirst_names]
  exact hn

theorem getByExchange_processSnapshot_ne {σ : Type} (s : Store σ) (exch : String)
    (p : CurrencyPair) (snap : σ) (tt : AssetType) (exch' : String) (h : exch' ≠ exch) :
    getByExchange (processSnapshot s exch p snap tt) exch' = getByExchange s exch' := by
  cases hg : getByExchange s exch with
  | none =>
    rw [processSnapshot_of_absent hg, createNew, getByExchange_append_singleton]
    rw [if_neg (show ¬ (⟨[(p.FirstCurrency, [(p.SecondCurrency, [(tt, snap)])])], exch⟩ :
      ExchEntry σ).ExchangeName = exch' from fun hh => h (by simpa using hh.symm))]
    simp
  | some y =>
    rw [processSnapshot_of_found hg]
    by_cases hf : firstCurrencyExists s exch p.FirstCurrency
    · rw [if_pos hf]
      exact getByExchange_updateFirst_ne s exch exch' _ h
    · rw [if_neg hf]
      exact getByExchange_updateFirst_ne s exch exch' _ h

theorem firstCurrencyExists_processSnapshot_ne {σ : Type} (s : Store σ) (exch : String)
    (p : CurrencyPair) (snap : σ) (tt : AssetType) (exch' cur : String) (h : exch' ≠ exch) :
    firstCurrencyExists (processSnapshot s exch p snap tt) exch' cur =
      firstCurrencyExists s exch' cur := by
  cases hg : getByExchange s exch with
  | none =>
    rw [processSnapshot_of_absent hg, createNew, firstCurrencyExists_append_singleton]
    simp [show ¬ (exch = exch') from fun hh => h hh.symm]
  | some y =>
    rw [processSnapshot_of_found hg]
    by_cases hf : firstCurrencyExists s exch p.FirstCurrency
    · rw [if_pos hf]
      exact firstCurrencyExists_updateFirst_ne s exch exch' cur _ h
    · rw [if_neg hf]
      exact firstCurrencyExists_updateFirst_ne s exch exch' cur _ h

theorem secondCurrencyExists_processSnapshot_ne {σ : Type} (s : Store σ) (exch : String)
    (p : CurrencyPair) (snap : σ) (tt : AssetType) (exch' first second : String)
    (h : exch' ≠ exch) :
    secondCurrencyExists (processSnapshot s exch p snap tt) exch' first second =
      secondCurrencyExists s exch' first second := by
  cases hg : getByExchange s exch with
  | none =>
    rw [processSnapshot_of_absent hg, createNew, secondCurrencyExists_append_singleton]
    simp [show ¬ (exch = exch') from fun hh => h hh.symm]
  | some y =>
    rw [processSnapshot_of_found hg]
    by_cases hf : firstCurrencyExists s exch p.FirstCurrency
    · rw [if_pos hf]
      exact secondCurrencyExists_updateFirst_ne s exch exch' first second _ h
    · rw [if_neg hf]
      exact secondCurrencyExists_updateFirst_ne s exch exch' first second _ h

theorem getSnapshot_processSnapshot_ne {σ : Type} (zero : σ) (e1 e2 e3 : String)
    (s : Store σ) (exch : String) (p : CurrencyPair) (snap : σ) (tt : AssetType)
    (exch' : String) (p' : CurrencyPair) (tt' : AssetType) (h : exch' ≠ exch) :
    getSnapshot zero e1 e2 e3 (processSnapshot s exch p snap tt) exch' p' tt' =
      getSnapshot zero e1 e2 e3 s exch' p' tt' := by
  unfold getSnapshot
  rw [getByExchange_processSnapshot_ne s exch p snap tt exch' h,
    firstCurrencyExists_processSnapshot_ne s exch p snap tt exch' p'.FirstCurrency h,
    secondCurrencyExists_processSnapshot_ne s exch p snap tt exch' p'.FirstCurrency
      p'.SecondCurrency h]

theorem currencyPair_ne_second {p p' : CurrencyPair}
    (hp : p' ≠ p) (h1 : p'.FirstCurrency = p.FirstCurrency) :
    p'.SecondCurrency ≠ p.SecondCurrency := by
  intro h2
  exact hp (by cases p; cases p'; simp_all)

theorem getSnapshot_processSnapshot_other_pair {σ : Type} (zero : σ) (e1 e2 e3 : String)
    (s : Store σ) (exch : String) (p : CurrencyPair) (snap : σ) (tt : AssetType)
    (p' : CurrencyPair) (tt' : AssetType) (v : σ)
    (hn : (s.map (·.ExchangeName)).Nodup) (hp : p' ≠ p)
    (hok : getSnapshot zero e1 e2 e3 s exch p' tt' = .ok v) :
    getSnapshot zero e1 e2 e3 (processSnapshot s exch p snap tt) exch p' tt' = .ok v := by
  obtain ⟨y, hg, h1, h2, hv⟩ := getSnapshot_ok_inv hok
  have h1y : (alookup y.Data p'.FirstCurrency).isSome = true :=
    (firstCurrencyExists_of_find hn hg p'.FirstCurrency).symm.trans h1
  have h2y : (match alookup y.Data p'.FirstCurrency with
      | some a => (alookup a p'.SecondCurrency).isSome
      | none => false) = true :=
    (secondCurrencyExists_of_find hn hg p'.FirstCurrency p'.SecondCurrency).symm.trans h2
  rw [processSnapshot_of_found hg]
  by_cases hf : firstCurrencyExists s exch p.FirstCurrency
  · rw [if_pos hf]
    set f2 : NestedMap σ → NestedMap σ := fun mp =>
      aset mp p.FirstCurrency
        (aset ((alookup mp p.FirstCurrency).getD []) p.SecondCurrency [(tt, snap)]) with hf2
    have hget' : getByExchange (updateFirst s exch f2) exch = some ⟨f2 y.Data, y.ExchangeName⟩ := by
      rw [getByExchange_updateFirst_self, hg]
      rfl
    have hn' := nodup_names_updateFirst s exch f2 hn
    have hfy : (alookup y.Data p.FirstCurrency).isSome = true :=
      (firstCurrencyExists_of_find hn hg p.FirstCurrency).symm.trans (by simpa using hf)
    obtain ⟨a0, ha0⟩ : ∃ a0, alookup y.Data p.FirstCurrency = some a0 :=
      Option.isSome_iff_exists.mp hfy
    by_cases hfirst : p'.FirstCurrency = p.FirstCurrency
    · have hsec := currencyPair_ne_second hp hfirst
      obtain ⟨b0, hb0⟩ : ∃ b0, alookup a0 p'.SecondCurrency = some b0 := by
        rw [hfirst, ha0] at h2y
        exact Option.isSome_iff_exists.mp h2y
      have hlook : alookup (f2 y.Data) p'.FirstCurrency =
          some (aset a0 p.SecondCurrency [(tt, snap)]) := by
        rw [hf2, hfirst]
        simp only [ha0, Option.getD_some]
        exact alookup_aset_self _ _ _
      have hlook2 : alookup (aset a0 p.SecondCurrency [(tt, snap)]) p'.SecondCurrency =
          some b0 := by
        rw [alookup_aset_ne _ _ _ _ hsec]
        exact hb0
      have hfirst' : firstCurrencyExists (updateFirst s exch f2) exch p'.FirstCurrency = true := by
        rw [firstCurrencyExists_of_find hn' hget' p'.FirstCurrency]
        simp [hlook]
      have hsecond' : secondCurrencyExists (updateFirst s exch f2) exch p'.FirstCurrency
          p'.SecondCurrency = true := by
        rw [secondCurrencyExists_of_find hn' hget' p'.FirstCurrency p'.SecondCurrency]
        simp [hlook, hlook2]
      rw [getSnapshot_eq_ok zero e1 e2 e3 p' tt' hget' hfirst' hsecond', hv, hfirst,
        show alookup (f2 y.Data) p.FirstCurrency =
          some (aset a0 p.SecondCurrency [(tt, snap)]) from hfirst ▸ hlook]
      simp only [ha0, Option.getD_some, hlook2, hb0]
    · obtain ⟨a1, ha1⟩ : ∃ a1, alookup y.Data p'.FirstCurrency = some a1 :=
        Option.isSome_iff_exists.mp h1y
      have hlook : alookup (f2 y.Data) p'.FirstCurrency = some a1 := by
        rw [hf2, alookup_aset_ne _ _ _ _ hfirst]
        exact ha1
      have hfirst' : firstCurrencyExists (updateFirst s exch f2) exch p'.FirstCurrency = true := by
        rw [firstCurrencyExists_of_find hn' hget' p'.FirstCurrency]
        simp [hlook]
      have hsecond' : secondCurrencyExists (updateFirst s exch f2) exch p'.FirstCurrency
          p'.SecondCurrency = true := by
        rw [secondCurrencyExists_of_find hn' hget' p'.FirstCurrency p'.SecondCurrency]
        rw [show ((⟨f2 y.Data, y.ExchangeName⟩ : ExchEntry σ)).Data = f2 y.Data from rfl, hlook]
        rw [ha1] at h2y
        exact h2y
      rw [getSnapshot_eq_ok zero e1 e2 e3 p' tt' hget' hfirst' hsecond']
      rw [hv]
      rw [show (⟨f2 y.Data, y.ExchangeName⟩ : ExchEntry σ).Data = f2 y.Data from rfl]
      rw [hlook, ha1]
  · rw [if_neg hf]
    set f3 : NestedMap σ → NestedMap σ := fun mp =>
      aset mp p.FirstCurrency [(p.SecondCurrency, [(tt, snap)])] with hf3
    have hget' : getByExchange (updateFirst s exch f3) exch = some ⟨f3 y.Data, y.ExchangeName⟩ := by
      rw [getByExchange_updateFirst_self, hg]
      rfl
    have hn' := nodup_names_updateFirst s exch f3 hn
    have hfirstne : p'.FirstCurrency ≠ p.FirstCurrency := by
      intro hh
      rw [hh] at h1
      exact hf h1
    obtain ⟨a1, ha1⟩ : ∃ a1, alookup y.Data p'.FirstCurrency = some a1 :=
      Option.isSome_iff_exists.mp h1y
    have hlook : alookup (f3 y.Data) p'.FirstCurrency = some a1 := by
      rw [hf3, alookup_aset_ne _ _ _ _ hfirstne]
      exact ha1
    have hfirst' : firstCurrencyExists (updateFirst s exch f3) exch p'.FirstCurrency = true := by
      rw [firstCurrencyExists_of_find hn' hget' p'.FirstCurrency]
      simp [hlook]
    have hsecond' : secondCurrencyExists (updateFirst s exch f3) exch p'.FirstCurrency
        p'.SecondCurrency = true := by
      rw [secondCurrencyExists_of_find hn' hget' p'.FirstCurrency p'.SecondCurrency]
      rw [show (⟨f3 y.Data, y.ExchangeName⟩ : ExchEntry σ).Data = f3 y.Data from rfl, hlook]
      rw [ha1] at h2y
      exact h2y
    rw [getSnapshot_eq_ok zero e1 e2 e3 p' tt' hget' hfirst' hsecond']
    rw [hv]
    rw [show (⟨f3 y.Data, y.ExchangeName⟩ : ExchEntry σ).Data = f3 y.Data from rfl]
    rw [hlook, ha1]

theorem getSnapshot_processSnapshot_same_pair {σ : Type} (zero : σ) (e1 e2 e3 : String)
    (s : Store σ) (exch : String) (p : CurrencyPair) (snap : σ) (tt tt' : AssetType)
    (hn : (s.map (·.ExchangeName)).Nodup) (ht : tt' ≠ tt) :
    getSnapshot zero e1 e2 e3 (processSnapshot s exch p snap tt) exch p tt' = .ok zero := by
  have hsingle : alookup [(tt, snap)] tt' = none := by
    rw [alookup_singleton, if_neg (fun hh => ht hh.symm)]
  cases hg : getByExchange s exch with
  | none =>
    rw [processSnapshot_of_absent hg]
    have habs : ∀ y ∈ s, y.ExchangeName ≠ exch := (getByExchange_eq_none_iff s exch).mp hg
    have hget : getByExchange (createNew s exch p snap tt) exch =
        some ⟨[(p.FirstCurrency, [(p.SecondCurrency, [(tt, snap)])])], exch⟩ := by
      rw [createNew, getByExchange_append_singleton, hg, if_pos rfl]
      rfl
    have hn' : ((createNew s exch p snap tt).map (·.ExchangeName)).Nodup := by
      rw [createNew, List.map_append, List.nodup_append]
      refine ⟨hn, by simp, ?_⟩
      intro a ha hb
      simp only [List.map_cons, List.map_nil, List.mem_singleton] at hb
      obtain ⟨y, hy, hya⟩ := List.mem_map.mp ha
      exact habs y hy (by rw [hya, hb])
    have hl1 : alookup ([(p.FirstCurrency, [(p.SecondCurrency, [(tt, snap)])])] :
        NestedMap σ) p.FirstCurrency = some [(p.SecondCurrency, [(tt, snap)])] := by
      rw [alookup_singleton, if_pos rfl]
    have hfirst' : firstCurrencyExists (createNew s exch p snap tt) exch p.FirstCurrency = true := by
      rw [firstCurrencyExists_of_find hn' hget p.FirstCurrency]
      simp [hl1]
    have hsecond' : secondCurrencyExists (createNew s exch p snap tt) exch p.FirstCurrency
        p.SecondCurrency = true := by
      rw [secondCurrencyExists_of_find hn' hget p.FirstCurrency p.SecondCurrency]
      rw [show (⟨[(p.FirstCurrency, [(p.SecondCurrency, [(tt, snap)])])], exch⟩ :
        ExchEntry σ).Data = [(p.FirstCurrency, [(p.SecondCurrency, [(tt, snap)])])] from rfl]
      rw [hl1]
      simp [alookup_singleton]
    rw [getSnapshot_eq_ok zero e1 e2 e3 p tt' hget hfirst' hsecond']
    rw [show (⟨[(p.FirstCurrency, [(p.SecondCurrency, [(tt, snap)])])], exch⟩ :
      ExchEntry σ).Data = [(p.FirstCurrency, [(p.SecondCurrency, [(tt, snap)])])] from rfl]
    rw [hl1]
    simp only [Option.getD_some]
    rw [alookup_singleton, if_pos rfl]
    simp only [Option.getD_some]
    simp [hsingle]
  | some y =>
    rw [processSnapshot_of_found hg]
    by_cases hf : firstCurrencyExists s exch p.FirstCurrency
    · rw [if_pos hf]
      set f2 : NestedMap σ → NestedMap σ := fun mp =>
        aset mp p.FirstCurrency
          (aset ((alookup mp p.FirstCurrency).getD []) p.SecondCurrency [(tt, snap)]) with hf2
      have hget' : getByExchange (updateFirst s exch f2) exch =
          some ⟨f2 y.Data, y.ExchangeName⟩ := by
        rw [getByExchange_updateFirst_self, hg]
        rfl
      have hn' := nodup_names_updateFirst s exch f2 hn
      have hlook : alookup (f2 y.Data) p.FirstCurrency =
          some (aset ((alookup y.Data p.FirstCurrency).getD []) p.SecondCurrency [(tt, snap)]) := by
        rw [hf2]
        exact alookup_aset_self _ _ _
      have hlook2 : alookup (aset ((alookup y.Data p.FirstCurrency).getD [])
          p.SecondCurrency [(tt, snap)]) p.SecondCurrency = some [(tt, snap)] :=
        alookup_aset_self _ _ _
      have hfirst' : firstCurrencyExists (updateFirst s exch f2) exch p.FirstCurrency = true := by
        rw [firstCurrencyExists_of_find hn' hget' p.FirstCurrency]
        simp [hlook]
      have hsecond' : secondCurrencyExists (updateFirst s exch f2) exch p.FirstCurrency
          p.SecondCurrency = true := by
        rw [secondCurrencyExists_of_find hn' hget' p.FirstCurrency p.SecondCurrency]
        rw [show (⟨f2 y.Data, y.ExchangeName⟩ : ExchEntry σ).Data = f2 y.Data from rfl]
        rw [hlook]
        simp [hlook2]
      rw [getSnapshot_eq_ok zero e1 e2 e3 p tt' hget' hfirst' hsecond']
      rw [show (⟨f2 y.Data, y.ExchangeName⟩ : ExchEntry σ).Data = f2 y.Data from rfl]
      rw [hlook]
      simp only [Option.getD_some]
      rw [hlook2]
      simp only [Option.getD_some]
      simp [hsingle]
    · rw [if_neg hf]
      set f3 : NestedMap σ → NestedMap σ := fun mp =>
        aset mp p.FirstCurrency [(p.SecondCurrency, [(tt, snap)])] with hf3
      have hget' : getByExchange (updateFirst s exch f3) exch =
          some ⟨f3 y.Data, y.ExchangeName⟩ := by
        rw [getByExchange_updateFirst_self, hg]
        rfl
      have hn' := nodup_names_updateFirst s exch f3 hn
      have hlook : alookup (f3 y.Data) p.FirstCurrency =
          some [(p.SecondCurrency, [(tt, snap)])] := by
        rw [hf3]
        exact alookup_aset_self _ _ _
      have hfirst' : firstCurrencyExists (updateFirst s exch f3) exch p.FirstCurrency = true := by
        rw [firstCurrencyExists_of_find hn' hget' p.FirstCurrency]
        simp [hlook]
      have hsecond' : secondCurrencyExists (updateFirst s exch f3) exch p.FirstCurrency
          p.SecondCurrency = true := by
        rw [secondCurrencyExists_of_find hn' hget' p.FirstCurrency p.SecondCurrency]
        rw [show (⟨f3 y.Data, y.ExchangeName⟩ : ExchEntry σ).Data = f3 y.Data from rfl]
        rw [hlook]
        simp [alookup_singleton]
      rw [getSnapshot_eq_ok zero e1 e2 e3 p tt' hget' hfirst' hsecond']
      rw [show (⟨f3 y.Data, y.ExchangeName⟩ : ExchEntry σ).Data = f3 y.Data from rfl]
      rw [hlook]
      simp only [Option.getD_some]
      rw [alookup_singleton, if_pos rfl]
      simp only [Option.getD_some]
      simp [hsingle]

/-! ### C1: the upsert frame property -/

/-- C1 counterexample: with snapshots stored for both the SPOT and the FUTURES
asset types of the same `(exchange, pair)`, a `ProcessTicker` upsert for the
SPOT triple destroys the FUTURES snapshot: the FUTURES lookup returned the
stored snapshot (`Last = 2`) before the upsert and returns the zero-value
snapshot after it, refuting the claim that an upsert replaces only the
snapshot of its exact assetType. -/
theorem C1_counterexample :
    ticker.GetTicker
        [⟨[("BTC", [("USD", [("SPOT",
            { Pair := ⟨"BTC", "USD"⟩, LastUpdated := 0, CurrencyPair := "BTCUSD", Last := 1,
              High := 0, Low := 0, Bid := 0, Ask := 0, Volume := 0, PriceATH := 0 }),
          ("FUTURES",
            { Pair := ⟨"BTC", "USD"⟩, LastUpdated := 0, CurrencyPair := "BTCUSD", Last := 2,
              High := 0, Low := 0, Bid := 0, Ask := 0, Volume := 0, PriceATH := 0 })])])], "exch"⟩]
        "exch" ⟨"BTC", "USD"⟩ "FUTURES" =
      .ok { Pair := ⟨"BTC", "USD"⟩, LastUpdated := 0, CurrencyPair := "BTCUSD", Last := 2,
            High := 0, Low := 0, Bid := 0, Ask := 0, Volume := 0, PriceATH := 0 } ∧
    ticker.GetTicker
        (ticker.ProcessTicker
          [⟨[("BTC", [("USD", [("SPOT",
              { Pair := ⟨"BTC", "USD"⟩, LastUpdated := 0, CurrencyPair := "BTCUSD", Last := 1,
                High := 0, Low := 0, Bid := 0, Ask := 0, Volume := 0, PriceATH := 0 }),
            ("FUTURES",
              { Pair := ⟨"BTC", "USD"⟩, LastUpdated := 0, CurrencyPair := "BTCUSD", Last := 2,
                High := 0, Low := 0, Bid := 0, Ask := 0, Volume := 0, PriceATH := 0 })])])], "exch"⟩]
          "exch" ⟨"BTC", "USD"⟩
          { Pair := ⟨"BTC", "USD"⟩, LastUpdated := 0, CurrencyPair := "BTCUSD", Last := 3,
            High := 0, Low := 0, Bid := 0, Ask := 0, Volume := 0, PriceATH := 0 }
          "SPOT" 5)
        "exch" ⟨"BTC", "USD"⟩ "FUTURES" = .ok ticker.zeroPrice ∧
    ({ Pair := ⟨"BTC", "USD"⟩, LastUpdated := 0, CurrencyPair := "BTCUSD", Last := 2,
       High := 0, Low := 0, Bid := 0, Ask := 0, Volume := 0,
       PriceATH := 0 } : ticker.Price) ≠ ticker.zeroPrice :=
  ⟨rfl, rfl, by decide⟩

/-- C1 (amended): for stores whose exchange names are duplicate-free, an
upsert (`ProcessTicker` / `ProcessOrderbook`) for one `(exchange, pair,
assetType)` triple leaves every lookup under a different exchange, and every
previously successful lookup of a different pair, unchanged; but it replaces
the whole per-pair assetType map, so a lookup of the same pair under any other
assetType afterwards returns the zero-value snapshot (the previously stored
sibling snapshot is discarded). -/
theorem C1_upsert_frame :
    (∀ (s : Store ticker.Price) (exch : String) (p : CurrencyPair) (snap : ticker.Price)
        (tt : AssetType) (now : Nat), (s.map (·.ExchangeName)).Nodup →
      (∀ (exch' : String) (p' : CurrencyPair) (tt' : AssetType), exch' ≠ exch →
        ticker.GetTicker (ticker.ProcessTicker s exch p snap tt now) exch' p' tt' =
          ticker.GetTicker s exch' p' tt') ∧
      (∀ (p' : CurrencyPair) (tt' : AssetType) (v : ticker.Price), p' ≠ p →
        ticker.GetTicker s exch p' tt' = .ok v →
        ticker.GetTicker (ticker.ProcessTicker s exch p snap tt now) exch p' tt' = .ok v) ∧
      (∀ tt' : AssetType, tt' ≠ tt →
        ticker.GetTicker (ticker.ProcessTicker s exch p snap tt now) exch p tt' =
          .ok ticker.zeroPrice)) ∧
    (∀ (s : Store orderbook.Base) (exch : String) (p : CurrencyPair) (snap : orderbook.Base)
        (tt : AssetType) (now : Nat), (s.map (·.ExchangeName)).Nodup →
      (∀ (exch' : String) (p' : CurrencyPair) (tt' : AssetType), exch' ≠ exch →
        orderbook.GetOrderbook (orderbook.ProcessOrderbook s exch p snap tt now) exch' p' tt' =
          orderbook.GetOrderbook s exch' p' tt') ∧
      (∀ (p' : CurrencyPair) (tt' : AssetType) (v : orderbook.Base), p' ≠ p →
        orderbook.GetOrderbook s exch p' tt' = .ok v →
        orderbook.GetOrderbook (orderbook.ProcessOrderbook s exch p snap tt now) exch p' tt' =
          .ok v) ∧
      (∀ tt' : AssetType, tt' ≠ tt →
        orderbook.GetOrderbook (orderbook.ProcessOrderbook s exch p snap tt now) exch p tt' =
          .ok orderbook.zeroBase)) := by
  constructor
  · intro s exch p snap tt now hn
    refine ⟨?_, ?_, ?_⟩
    · intro exch' p' tt' h
      exact getSnapshot_processSnapshot_ne ticker.zeroPrice _ _ _ s exch p
        (ticker.tickerPrep p now snap) tt exch' p' tt' h
    · intro p' tt' v hp hok
      exact getSnapshot_processSnapshot_other_pair ticker.zeroPrice _ _ _ s exch p
        (ticker.tickerPrep p now snap) tt p' tt' v hn hp hok
    · intro tt' ht
      exact getSnapshot_processSnapshot_same_pair ticker.zeroPrice _ _ _ s exch p
        (ticker.tickerPrep p now snap) tt tt' hn ht
  · intro s exch p snap tt now hn
    refine ⟨?_, ?_, ?_⟩
    · intro exch' p' tt' h
      exact getSnapshot_processSnapshot_ne orderbook.zeroBase _ _ _ s exch p
        (orderbook.orderbookPrep p now snap) tt exch' p' tt' h
    · intro p' tt' v hp hok
      exact getSnapshot_processSnapshot_other_pair orderbook.zeroBase _ _ _ s exch p
        (orderbook.orderbookPrep p now snap) tt p' tt' v hn hp hok
    · intro tt' ht
      exact getSnapshot_processSnapshot_same_pair orderbook.zeroBase _ _ _ s exch p
        (orderbook.orderbookPrep p now snap) tt tt' hn ht

/-- Witness for C1: the amended frame property evaluated at a concrete
two-pair store, exercising all three clauses of the ticker half. -/
theorem C1_upsert_frame_witness :
    (ticker.GetTicker
        (ticker.ProcessTicker
          [⟨[("BTC", [("USD", [("SPOT", ticker.zeroPrice)]), ("EUR", [("SPOT", ticker.zeroPrice)])])], "exch"⟩]
          "exch" ⟨"BTC", "USD"⟩ ticker.zeroPrice "SPOT" 7)
        "other" ⟨"BTC", "USD"⟩ "SPOT" =
      ticker.GetTicker
        [⟨[("BTC", [("USD", [("SPOT", ticker.zeroPrice)]), ("EUR", [("SPOT", ticker.zeroPrice)])])], "exch"⟩]
        "other" ⟨"BTC", "USD"⟩ "SPOT") ∧
    (ticker.GetTicker
        (ticker.ProcessTicker
          [⟨[("BTC", [("USD", [("SPOT", ticker.zeroPrice)]), ("EUR", [("SPOT", ticker.zeroPrice)])])], "exch"⟩]
          "exch" ⟨"BTC", "USD"⟩ ticker.zeroPrice "SPOT" 7)
        "exch" ⟨"BTC", "EUR"⟩ "SPOT" = .ok ticker.zeroPrice) ∧
    (ticker.GetTicker
        (ticker.ProcessTicker
          [⟨[("BTC", [("USD", [("SPOT", ticker.zeroPrice)]), ("EUR", [("SPOT", ticker.zeroPrice)])])], "exch"⟩]
          "exch" ⟨"BTC", "USD"⟩ ticker.zeroPrice "SPOT" 7)
        "exch" ⟨"BTC", "USD"⟩ "FUTURES" = .ok ticker.zeroPrice) :=
  ⟨(C1_upsert_frame.1
      [⟨[("BTC", [("USD", [("SPOT", ticker.zeroPrice)]), ("EUR", [("SPOT", ticker.zeroPrice)])])], "exch"⟩]
      "exch" ⟨"BTC", "USD"⟩ ticker.zeroPrice "SPOT" 7 (by decide)).1
      "other" ⟨"BTC", "USD"⟩ "SPOT" (by decide),
   (C1_upsert_frame.1
      [⟨[("BTC", [("USD", [("SPOT", ticker.zeroPrice)]), ("EUR", [("SPOT", ticker.zeroPrice)])])], "exch"⟩]
      "exch" ⟨"BTC", "USD"⟩ ticker.zeroPrice "SPOT" 7 (by decide)).2.1
      ⟨"BTC", "EUR"⟩ "SPOT" ticker.zeroPrice (by decide) rfl,
   (C1_upsert_frame.1
      [⟨[("BTC", [("USD", [("SPOT", ticker.zeroPrice)]), ("EUR", [("SPOT", ticker.zeroPrice)])])], "exch"⟩]
      "exch" ⟨"BTC", "USD"⟩ ticker.zeroPrice "SPOT" 7 (by decide)).2.2
      "FUTURES" (by decide)⟩

/-! ### C5: lookup error precedence -/

theorem firstCurrencyExists_iff {σ : Type} (s : Store σ) (exch cur : String) :
    firstCurrencyExists s exch cur = true ↔
      ∃ y ∈ s, y.ExchangeName = exch ∧ (alookup y.Data cur).isSome = true := by
  simp [firstCurrencyExists, List.any_eq_true]

theorem match_lookup_eq_true_iff {β : Type} (o : Option (List (String × β))) (k : String) :
    (match o with
     | some a => (alookup a k).isSome
     | none => false) = true ↔
      ∃ a, o = some a ∧ (alookup a k).isSome = true := by
  cases o <;> simp

theorem secondCurrencyExists_iff {σ : Type} (s : Store σ) (exch first second : String) :
    secondCurrencyExists s exch first second = true ↔
      ∃ y ∈ s, y.ExchangeName = exch ∧
        ∃ a, alookup y.Data first = some a ∧ (alookup a second).isSome = true := by
  simp only [secondCurrencyExists, List.any_eq_true, Bool.and_eq_true, decide_eq_true_eq]
  constructor
  · rintro ⟨y, hy, hn, hm⟩
    refine ⟨y, hy, hn, ?_⟩
    rcases ha : alookup y.Data first with _ | a
    · rw [ha] at hm
      simp at hm
    · rw [ha] at hm
      simp only [] at hm
      exact ⟨a, rfl, by simpa using hm⟩
  · rintro ⟨y, hy, hn, a, ha, hs⟩
    refine ⟨y, hy, hn, ?_⟩
    rw [ha]
    simpa using hs

theorem getSnapshot_precedence {σ : Type} (zero : σ) (e1 e2 e3 : String) (s : Store σ)
    (exch : String) (p : CurrencyPair) (tt : AssetType) :
    ((¬ ∃ y ∈ s, y.ExchangeName = exch) →
      getSnapshot zero e1 e2 e3 s exch p tt = .error e1) ∧
    ((∃ y ∈ s, y.ExchangeName = exch) →
      (¬ ∃ y ∈ s, y.ExchangeName = exch ∧ (alookup y.Data p.FirstCurrency).isSome = true) →
      getSnapshot zero e1 e2 e3 s exch p tt = .error e2) ∧
    ((∃ y ∈ s, y.ExchangeName = exch ∧ (alookup y.Data p.FirstCurrency).isSome = true) →
      (¬ ∃ y ∈ s, y.ExchangeName = exch ∧
        ∃ a, alookup y.Data p.FirstCurrency = some a ∧
          (alookup a p.SecondCurrency).isSome = true) →
      getSnapshot zero e1 e2 e3 s exch p tt = .error e3) ∧
    (∀ y, getByExchange s exch = some y →
      (∃ y' ∈ s, y'.ExchangeName = exch ∧ (alookup y'.Data p.FirstCurrency).isSome = true) →
      (∃ y' ∈ s, y'.ExchangeName = exch ∧
        ∃ a, alookup y'.Data p.FirstCurrency = some a ∧
          (alookup a p.SecondCurrency).isSome = true) →
      getSnapshot zero e1 e2 e3 s exch p tt =
        .ok ((alookup ((alookup ((alookup y.Data p.FirstCurrency).getD [])
          p.SecondCurrency).getD []) tt).getD zero)) := by
  refine ⟨?_, ?_, ?_, ?_⟩
  · intro h
    refine getSnapshot_error_exchange zero e1 e2 e3 p tt ?_
    rw [getByExchange_eq_none_iff]
    intro y hy hc
    exact h ⟨y, hy, hc⟩
  · intro hex h1
    obtain ⟨y, hy, hyn⟩ := hex
    have hg : ∃ z, getByExchange s exch = some z := by
      rcases hq : getByExchange s exch with _ | z
      · exact absurd ((getByExchange_eq_none_iff s exch).mp hq y hy) (by simp [hyn])
      · exact ⟨z, rfl⟩
    obtain ⟨z, hz⟩ := hg
    refine getSnapshot_error_primary zero e1 e2 e3 p tt hz ?_
    rw [← Bool.not_eq_true]
    rw [firstCurrencyExists_iff]
    exact h1
  · intro hex h2
    obtain ⟨y, hy, hyn, hyf⟩ := hex
    have hg : ∃ z, getByExchange s exch = some z := by
      rcases hq : getByExchange s exch with _ | z
      · exact absurd ((getByExchange_eq_none_iff s exch).mp hq y hy) (by simp [hyn])
      · exact ⟨z, rfl⟩
    obtain ⟨z, hz⟩ := hg
    refine getSnapshot_error_secondary zero e1 e2 e3 p tt hz ?_ ?_
    · rw [firstCurrencyExists_iff]
      exact ⟨y, hy, hyn, hyf⟩
    · rw [← Bool.not_eq_true, secondCurrencyExists_iff]
      exact h2
  · intro y hy h1 h2
    refine getSnapshot_eq_ok zero e1 e2 e3 p tt hy ?_ ?_
    · rw [firstCurrencyExists_iff]
      exact h1
    · rw [secondCurrencyExists_iff]
      exact h2

/-- C5: lookup error precedence.  For both `GetTicker` and `GetOrderbook`: no
entry for the exchange → the exchange-not-found error; exchange present but
base currency unseen for it → the primary-currency error; exchange and base
present but quote unseen → the secondary-currency error; otherwise the stored
snapshot of the first matching entry is returned with no error, the zero-value
snapshot standing in when the assetType slot was never upserted. -/
theorem C5_lookup_error_precedence :
    (∀ (s : Store ticker.Price) (exch : String) (p : CurrencyPair) (tt : AssetType),
      ((¬ ∃ y ∈ s, y.ExchangeName = exch) →
        ticker.GetTicker s exch p tt = .error ticker.ErrTickerForExchangeNotFound) ∧
      ((∃ y ∈ s, y.ExchangeName = exch) →
        (¬ ∃ y ∈ s, y.ExchangeName = exch ∧ (alookup y.Data p.FirstCurrency).isSome = true) →
        ticker.GetTicker s exch p tt = .error ticker.ErrPrimaryCurrencyNotFound) ∧
      ((∃ y ∈ s, y.ExchangeName = exch ∧ (alookup y.Data p.FirstCurrency).isSome = true) →
        (¬ ∃ y ∈ s, y.ExchangeName = exch ∧
          ∃ a, alookup y.Data p.FirstCurrency = some a ∧
            (alookup a p.SecondCurrency).isSome = true) →
        ticker.GetTicker s exch p tt = .error ticker.ErrSecondaryCurrencyNotFound) ∧
      (∀ y, getByExchange s exch = some y →
        (∃ y' ∈ s, y'.ExchangeName = exch ∧ (alookup y'.Data p.FirstCurrency).isSome = true) →
        (∃ y' ∈ s, y'.ExchangeName = exch ∧
          ∃ a, alookup y'.Data p.FirstCurrency = some a ∧
            (alookup a p.SecondCurrency).isSome = true) →
        ticker.GetTicker s exch p tt =
          .ok ((alookup ((alookup ((alookup y.Data p.FirstCurrency).getD [])
            p.SecondCurrency).getD []) tt).getD ticker.zeroPrice))) ∧
    (∀ (s : Store orderbook.Base) (exch : String) (p : CurrencyPair) (tt : AssetType),
      ((¬ ∃ y ∈ s, y.ExchangeName = exch) →
        orderbook.GetOrderbook s exch p tt = .error orderbook.ErrOrderbookForExchangeNotFound) ∧
      ((∃ y ∈ s, y.ExchangeName = exch) →
        (¬ ∃ y ∈ s, y.ExchangeName = exch ∧ (alookup y.Data p.FirstCurrency).isSome = true) →
        orderbook.GetOrderbook s exch p tt = .error orderbook.ErrPrimaryCurrencyNotFoundOb) ∧
      ((∃ y ∈ s, y.ExchangeName = exch ∧ (alookup y.Data p.FirstCurrency).isSome = true) →
        (¬ ∃ y ∈ s, y.ExchangeName = exch ∧
          ∃ a, alookup y.Data p.FirstCurrency = some a ∧
            (alookup a p.SecondCurrency).isSome = true) →
        orderbook.GetOrderbook s exch p tt = .error orderbook.ErrSecondaryCurrencyNotFoundOb) ∧
      (∀ y, getByExchange s exch = some y →
        (∃ y' ∈ s, y'.ExchangeName = exch ∧ (alookup y'.Data p.FirstCurrency).isSome = true) →
        (∃ y' ∈ s, y'.ExchangeName = exch ∧
          ∃ a, alookup y'.Data p.FirstCurrency = some a ∧
            (alookup a p.SecondCurrency).isSome = true) →
        orderbook.GetOrderbook s exch p tt =
          .ok ((alookup ((alookup ((alookup y.Data p.FirstCurrency).getD [])
            p.SecondCurrency).getD []) tt).getD orderbook.zeroBase))) :=
  ⟨fun s exch p tt => getSnapshot_precedence ticker.zeroPrice _ _ _ s exch p tt,
   fun s exch p tt => getSnapshot_precedence orderbook.zeroBase _ _ _ s exch p tt⟩

/-- Witness for C5: the four ticker clauses evaluated on concrete stores. -/
theorem C5_lookup_error_precedence_witness :
    (ticker.GetTicker [] "exch" ⟨"BTC", "USD"⟩ "SPOT" =
      .error ticker.ErrTickerForExchangeNotFound) ∧
    (ticker.GetTicker [⟨[], "exch"⟩] "exch" ⟨"BTC", "USD"⟩ "SPOT" =
      .error ticker.ErrPrimaryCurrencyNotFound) ∧
    (ticker.GetTicker [⟨[("BTC", [])], "exch"⟩] "exch" ⟨"BTC", "USD"⟩ "SPOT" =
      .error ticker.ErrSecondaryCurrencyNotFound) ∧
    (ticker.GetTicker [⟨[("BTC", [("USD", [])])], "exch"⟩] "exch" ⟨"BTC", "USD"⟩ "SPOT" =
      .ok ticker.zeroPrice) :=
  ⟨(C5_lookup_error_precedence.1 [] "exch" ⟨"BTC", "USD"⟩ "SPOT").1 (by simp),
   (C5_lookup_error_precedence.1 [⟨[], "exch"⟩] "exch" ⟨"BTC", "USD"⟩ "SPOT").2.1
     ⟨⟨[], "exch"⟩, by simp, rfl⟩ (by simp [alookup]),
   (C5_lookup_error_precedence.1 [⟨[("BTC", [])], "exch"⟩] "exch" ⟨"BTC", "USD"⟩ "SPOT").2.2.1
     ⟨⟨[("BTC", [])], "exch"⟩, by simp, rfl, by simp [alookup]⟩
     (by simp [alookup]),
   (C5_lookup_error_precedence.1 [⟨[("BTC", [("USD", [])])], "exch"⟩] "exch"
       ⟨"BTC", "USD"⟩ "SPOT").2.2.2 ⟨[("BTC", [("USD", [])])], "exch"⟩ rfl
     ⟨⟨[("BTC", [("USD", [])])], "exch"⟩, by simp, rfl, by simp [alookup]⟩
     ⟨⟨[("BTC", [("USD", [])])], "exch"⟩, by simp, rfl, [("USD", [])], by simp [alookup],
       by simp [alookup]⟩⟩

/-! ### Events: condition evaluation lemmas -/

theorem processCondition_eq (e : events.Event) (actual threshold : ℚ) :
    events.processCondition e actual threshold =
      (events.conditionHolds e.Condition.Condition actual threshold,
       if events.conditionHolds e.Condition.Condition actual threshold then 1 else 0) := by
  unfold events.processCondition events.conditionHolds events.ExecuteAction
  split_ifs <;> simp_all <;> linarith

theorem scanSide_eq (e : events.Event) (levels : List orderbook.Item) :
    events.scanSide e levels =
      (levels.any (fun it => events.conditionHolds e.Condition.Condition
        (it.Amount * it.Price) e.Condition.OrderbookAmount),
       (levels.filter (fun it => events.conditionHolds e.Condition.Condition
        (it.Amount * it.Price) e.Condition.OrderbookAmount)).length) := by
  have aux : ∀ (ls : List orderbook.Item) (b : Bool) (n : Nat),
      ls.foldl (fun acc it =>
        let r := events.processCondition e (it.Amount * it.Price) e.Condition.OrderbookAmount
        (acc.1 || r.1, acc.2 + r.2)) (b, n) =
      (b || ls.any (fun it => events.conditionHolds e.Condition.Condition
        (it.Amount * it.Price) e.Condition.OrderbookAmount),
       n + (ls.filter (fun it => events.conditionHolds e.Condition.Condition
        (it.Amount * it.Price) e.Condition.OrderbookAmount)).length) := by
    intro ls
    induction ls with
    | nil => intro b n; simp
    | cons it rest ih =>
      intro b n
      rw [List.foldl_cons]
      rw [show (let r := events.processCondition e (it.Amount * it.Price) e.Condition.OrderbookAmount; ((b, n).1 || r.1, (b, n).2 + r.2)) =
          ((b, n).1 || (events.processCondition e (it.Amount * it.Price)
            e.Condition.OrderbookAmount).1,
           (b, n).2 + (events.processCondition e (it.Amount * it.Price)
            e.Condition.OrderbookAmount).2) from rfl]
      rw [ih]
      simp only [processCondition_eq, Prod.mk.injEq, List.any_cons, List.filter_cons]
      by_cases hc : events.conditionHolds e.Condition.Condition
          (it.Amount * it.Price) e.Condition.OrderbookAmount
      · refine ⟨by simp [hc, Bool.or_assoc], ?_⟩
        simp [hc]
        omega
      · refine ⟨by simp [hc, Bool.or_assoc], ?_⟩
        simp [hc]
  rw [events.scanSide, aux]
  simp

theorem processTicker_error (ts : Store ticker.Price) (e : events.Event) (err : String)
    (h : ticker.GetTicker ts e.Exchange e.Pair e.Asset = .error err) :
    events.processTicker ts e = (false, 0) := by
  unfold events.processTicker
  rw [h]

theorem processTicker_ok (ts : Store ticker.Price) (e : events.Event) (t : ticker.Price)
    (h : ticker.GetTicker ts e.Exchange e.Pair e.Asset = .ok t) :
    events.processTicker ts e =
      if t.Last = 0 then (false, 0)
      else events.processCondition e t.Last e.Condition.Price := by
  unfold events.processTicker
  rw [h]

theorem processOrderbook_error (os : Store orderbook.Base) (e : events.Event) (err : String)
    (h : orderbook.GetOrderbook os e.Exchange e.Pair e.Asset = .error err) :
    events.processOrderbook os e = (false, 0) := by
  unfold events.processOrderbook
  rw [h]

theorem processOrderbook_ok (os : Store orderbook.Base) (e : events.Event)
    (ob : orderbook.Base)
    (h : orderbook.GetOrderbook os e.Exchange e.Pair e.Asset = .ok ob) :
    events.processOrderbook os e =
      ((if e.Condition.CheckBids || e.Condition.CheckBidsAndAsks then
          ob.Bids.any (fun it => events.conditionHolds e.Condition.Condition
            (it.Amount * it.Price) e.Condition.OrderbookAmount)
        else false) ||
       (if !e.Condition.CheckBids || e.Condition.CheckBidsAndAsks then
          ob.Asks.any (fun it => events.conditionHolds e.Condition.Condition
            (it.Amount * it.Price) e.Condition.OrderbookAmount)
        else false),
       (if e.Condition.CheckBids || e.Condition.CheckBidsAndAsks then
          (ob.Bids.filter (fun it => events.conditionHolds e.Condition.Condition
            (it.Amount * it.Price) e.Condition.OrderbookAmount)).length
        else 0) +
       (if !e.Condition.CheckBids || e.Condition.CheckBidsAndAsks then
          (ob.Asks.filter (fun it => events.conditionHolds e.Condition.Condition
            (it.Amount * it.Price) e.Condition.OrderbookAmount)).length
        else 0)) := by
  unfold events.processOrderbook
  rw [h]
  by_cases hb : (e.Condition.CheckBids || e.Condition.CheckBidsAndAsks) = true <;>
    by_cases ha : (!e.Condition.CheckBids || e.Condition.CheckBidsAndAsks) = true <;>
      simp [hb, ha, scanSide_eq]

/-! ### C7, C9, C8, C3: event evaluation -/

/-- C7: an ORDERBOOK evaluation triggers exactly when the orderbook lookup
succeeds and some single depth level on a checked side satisfies
`amount * price` against the threshold notional under the event's operator;
bids are checked iff `CheckBids || CheckBidsAndAsks` and asks iff
`!CheckBids || CheckBidsAndAsks`; no aggregate sum is involved. -/
theorem C7_orderbook_evaluation :
    ∀ (os : Store orderbook.Base) (e : events.Event),
      (events.processOrderbook os e).1 = true ↔
        ∃ ob, orderbook.GetOrderbook os e.Exchange e.Pair e.Asset = .ok ob ∧
          (((e.Condition.CheckBids || e.Condition.CheckBidsAndAsks) = true ∧
            ∃ it ∈ ob.Bids, events.conditionHolds e.Condition.Condition
              (it.Amount * it.Price) e.Condition.OrderbookAmount = true) ∨
           ((!e.Condition.CheckBids || e.Condition.CheckBidsAndAsks) = true ∧
            ∃ it ∈ ob.Asks, events.conditionHolds e.Condition.Condition
              (it.Amount * it.Price) e.Condition.OrderbookAmount = true)) := by
  intro os e
  cases hq : orderbook.GetOrderbook os e.Exchange e.Pair e.Asset with
  | error err =>
    rw [processOrderbook_error os e err hq]
    simp
  | ok ob =>
    rw [processOrderbook_ok os e ob hq]
    by_cases hb : (e.Condition.CheckBids || e.Condition.CheckBidsAndAsks) = true <;>
      by_cases ha : (!e.Condition.CheckBids || e.Condition.CheckBidsAndAsks) = true <;>
        simp [hb, ha, List.any_eq_true]

/-- C9: a PRICE evaluation triggers exactly when the ticker lookup succeeds,
the snapshot's last price is non-zero and the operator holds between it and
the threshold price; otherwise the evaluation reports no trigger and performs
no dispatch. -/
theorem C9_price_evaluation :
    ∀ (ts : Store ticker.Price) (e : events.Event),
      ((events.processTicker ts e).1 = true ↔
        ∃ t, ticker.GetTicker ts e.Exchange e.Pair e.Asset = .ok t ∧ t.Last ≠ 0 ∧
          events.conditionHolds e.Condition.Condition t.Last e.Condition.Price = true) ∧
      ((∀ t, ticker.GetTicker ts e.Exchange e.Pair e.Asset = .ok t → t.Last = 0) →
        events.processTicker ts e = (false, 0)) := by
  intro ts e
  cases hq : ticker.GetTicker ts e.Exchange e.Pair e.Asset with
  | error err =>
    rw [processTicker_error ts e err hq]
    exact ⟨by simp, fun _ => rfl⟩
  | ok t =>
    rw [processTicker_ok ts e t hq]
    constructor
    · by_cases hz : t.Last = 0
      · simp [hz]
      · simp [hz, processCondition_eq]
    · intro hzero
      simp [hzero t rfl]

/-- Witness for C9: the skip clause at a store without the exchange, and the
trigger clause at a store whose snapshot satisfies the condition. -/
theorem C9_price_evaluation_witness :
    events.processTicker []
      { ID := 0, Exchange := "exch", Item := "PRICE",
        Condition := ⟨">", 3, false, false, 0⟩, Pair := ⟨"BTC", "USD"⟩, Asset := "SPOT",
        Action := "CONSOLE_PRINT", Executed := false } = (false, 0) ∧
    (events.processTicker
      [⟨[("BTC", [("USD", [("SPOT",
        { Pair := ⟨"BTC", "USD"⟩, LastUpdated := 0, CurrencyPair := "BTCUSD", Last := 5,
          High := 0, Low := 0, Bid := 0, Ask := 0, Volume := 0, PriceATH := 0 })])])], "exch"⟩]
      { ID := 0, Exchange := "exch", Item := "PRICE",
        Condition := ⟨">", 3, false, false, 0⟩, Pair := ⟨"BTC", "USD"⟩, Asset := "SPOT",
        Action := "CONSOLE_PRINT", Executed := false }).1 = true :=
  ⟨(C9_price_evaluation []
      { ID := 0, Exchange := "exch", Item := "PRICE",
        Condition := ⟨">", 3, false, false, 0⟩, Pair := ⟨"BTC", "USD"⟩, Asset := "SPOT",
        Action := "CONSOLE_PRINT", Executed := false }).2
    (fun _t ht => Except.noConfusion ht),
   (C9_price_evaluation
      [⟨[("BTC", [("USD", [("SPOT",
        { Pair := ⟨"BTC", "USD"⟩, LastUpdated := 0, CurrencyPair := "BTCUSD", Last := 5,
          High := 0, Low := 0, Bid := 0, Ask := 0, Volume := 0, PriceATH := 0 })])])], "exch"⟩]
      { ID := 0, Exchange := "exch", Item := "PRICE",
        Condition := ⟨">", 3, false, false, 0⟩, Pair := ⟨"BTC", "USD"⟩, Asset := "SPOT",
        Action := "CONSOLE_PRINT", Executed := false }).1.mpr
    ⟨{ Pair := ⟨"BTC", "USD"⟩, LastUpdated := 0, CurrencyPair := "BTCUSD", Last := 5,
       High := 0, Low := 0, Bid := 0, Ask := 0, Volume := 0, PriceATH := 0 }, rfl,
      by decide, by decide⟩⟩

/-- C8: `processCondition` matches exactly the mathematical comparison for
each of the five operators (equality matching under `>=`, `<=`, `==` only),
and an unrecognized operator never matches. -/
theorem C8_condition_operators :
    ∀ (e : events.Event) (actual threshold : ℚ),
      (e.Condition.Condition = events.ConditionGreaterThan →
        ((events.processCondition e actual threshold).1 = true ↔ actual > threshold)) ∧
      (e.Condition.Condition = events.ConditionGreaterThanOrEqual →
        ((events.processCondition e actual threshold).1 = true ↔ actual ≥ threshold)) ∧
      (e.Condition.Condition = events.ConditionLessThan →
        ((events.processCondition e actual threshold).1 = true ↔ actual < threshold)) ∧
      (e.Condition.Condition = events.ConditionLessThanOrEqual →
        ((events.processCondition e actual threshold).1 = true ↔ actual ≤ threshold)) ∧
      (e.Condition.Condition = events.ConditionIsEqual →
        ((events.processCondition e actual threshold).1 = true ↔ actual = threshold)) ∧
      (e.Condition.Condition ∉ ([events.ConditionGreaterThan,
          events.ConditionGreaterThanOrEqual, events.ConditionLessThan,
          events.ConditionLessThanOrEqual, events.ConditionIsEqual] : List String) →
        (events.processCondition e actual threshold).1 = false) := by
  intro e actual threshold
  refine ⟨?_, ?_, ?_, ?_, ?_, ?_⟩
  · intro h
    simp [processCondition_eq, events.conditionHolds, h]
  · intro h
    simp [processCondition_eq, events.conditionHolds, h, events.ConditionGreaterThanOrEqual,
      events.ConditionGreaterThan]
  · intro h
    simp [processCondition_eq, events.conditionHolds, h, events.ConditionLessThan,
      events.ConditionGreaterThan, events.ConditionGreaterThanOrEqual]
  · intro h
    simp [processCondition_eq, events.conditionHolds, h, events.ConditionLessThanOrEqual,
      events.ConditionGreaterThan, events.ConditionGreaterThanOrEqual,
      events.ConditionLessThan]
  · intro h
    simp [processCondition_eq, events.conditionHolds, h, events.ConditionIsEqual,
      events.ConditionGreaterThan, events.ConditionGreaterThanOrEqual,
      events.ConditionLessThan, events.ConditionLessThanOrEqual]
  · intro h
    simp only [List.mem_cons, List.not_mem_nil, or_false, not_or] at h
    obtain ⟨h1, h2, h3, h4, h5⟩ := h
    simp [processCondition_eq, events.conditionHolds, h1, h2, h3, h4, h5]

/-- Witness for C8: the spec's boundary example, `actual = threshold = 100`,
matching under `>=` but not under `>`, and the unrecognized operator `<>`
never matching. -/
theorem C8_condition_operators_witness :
    ((events.processCondition
      { ID := 0, Exchange := "e", Item := "PRICE", Condition := ⟨">=", 1, false, false, 0⟩,
        Pair := ⟨"A", "B"⟩, Asset := "SPOT", Action := "ACTION_TEST", Executed := false }
      100 100).1 = true) ∧
    ((events.processCondition
      { ID := 0, Exchange := "e", Item := "PRICE", Condition := ⟨">", 1, false, false, 0⟩,
        Pair := ⟨"A", "B"⟩, Asset := "SPOT", Action := "ACTION_TEST", Executed := false }
      100 100).1 = false) ∧
    ((events.processCondition
      { ID := 0, Exchange := "e", Item := "PRICE", Condition := ⟨"<>", 1, false, false, 0⟩,
        Pair := ⟨"A", "B"⟩, Asset := "SPOT", Action := "ACTION_TEST", Executed := false }
      100 100).1 = false) :=
  ⟨((C8_condition_operators
      { ID := 0, Exchange := "e", Item := "PRICE", Condition := ⟨">=", 1, false, false, 0⟩,
        Pair := ⟨"A", "B"⟩, Asset := "SPOT", Action := "ACTION_TEST", Executed := false }
      100 100).2.1 rfl).mpr (by decide),
   Bool.eq_false_iff.mpr (fun ht =>
     absurd (((C8_condition_operators
      { ID := 0, Exchange := "e", Item := "PRICE", Condition := ⟨">", 1, false, false, 0⟩,
        Pair := ⟨"A", "B"⟩, Asset := "SPOT", Action := "ACTION_TEST", Executed := false }
      100 100).1 rfl).mp ht) (by decide)),
   (C8_condition_operators
      { ID := 0, Exchange := "e", Item := "PRICE", Condition := ⟨"<>", 1, false, false, 0⟩,
        Pair := ⟨"A", "B"⟩, Asset := "SPOT", Action := "ACTION_TEST", Executed := false }
      100 100).2.2.2.2.2 (by decide)⟩

/-- C3 counterexample: an ORDERBOOK event whose threshold notional (50, `>=`)
is met by two distinct bid levels (2x30 = 60 and 3x20 = 60) dispatches the
action twice in a single evaluation, refuting at-most-one dispatch. -/
theorem C3_counterexample :
    events.processOrderbook
        [⟨[("BTC", [("USD", [("SPOT",
          { Pair := ⟨"BTC", "USD"⟩, CurrencyPair := "BTCUSD",
            Bids := [⟨2, 30, 0⟩, ⟨3, 20, 0⟩], Asks := [], LastUpdated := 0,
            AssetType := "SPOT" })])])], "exch"⟩]
        { ID := 0, Exchange := "exch", Item := "ORDERBOOK",
          Condition := ⟨">=", 0, true, false, 50⟩, Pair := ⟨"BTC", "USD"⟩, Asset := "SPOT",
          Action := "CONSOLE_PRINT", Executed := false } = (true, 2) ∧ 1 < 2 :=
  ⟨by decide, by decide⟩

/-- C3 (amended): in one ORDERBOOK evaluation the action is dispatched once
per checked depth level whose notional satisfies the condition — possibly
several times in a single evaluation — and not at all when the orderbook
lookup fails; only across ticks does the manager stop after the first
successful evaluation. -/
theorem C3_dispatch_per_level :
    ∀ (os : Store orderbook.Base) (e : events.Event),
      (∀ err, orderbook.GetOrderbook os e.Exchange e.Pair e.Asset = .error err →
        (events.processOrderbook os e).2 = 0) ∧
      (∀ ob, orderbook.GetOrderbook os e.Exchange e.Pair e.Asset = .ok ob →
        (events.processOrderbook os e).2 =
          (if e.Condition.CheckBids || e.Condition.CheckBidsAndAsks then
            (ob.Bids.filter (fun it => events.conditionHolds e.Condition.Condition
              (it.Amount * it.Price) e.Condition.OrderbookAmount)).length
          else 0) +
          (if !e.Condition.CheckBids || e.Condition.CheckBidsAndAsks then
            (ob.Asks.filter (fun it => events.conditionHolds e.Condition.Condition
              (it.Amount * it.Price) e.Condition.OrderbookAmount)).length
          else 0)) := by
  intro os e
  constructor
  · intro err h
    rw [processOrderbook_error os e err h]
  · intro ob h
    rw [processOrderbook_ok os e ob h]

/-- Witness for C3: the per-level dispatch count evaluated on the two-level
store gives two dispatches. -/
theorem C3_dispatch_per_level_witness :
    (events.processOrderbook
        [⟨[("BTC", [("USD", [("SPOT",
          { Pair := ⟨"BTC", "USD"⟩, CurrencyPair := "BTCUSD",
            Bids := [⟨2, 30, 0⟩, ⟨3, 20, 0⟩], Asks := [], LastUpdated := 0,
            AssetType := "SPOT" })])])], "exch"⟩]
        { ID := 0, Exchange := "exch", Item := "ORDERBOOK",
          Condition := ⟨">=", 0, true, false, 50⟩, Pair := ⟨"BTC", "USD"⟩, Asset := "SPOT",
          Action := "CONSOLE_PRINT", Executed := false }).2 = 2 := by
  rw [(C3_dispatch_per_level
        [⟨[("BTC", [("USD", [("SPOT",
          { Pair := ⟨"BTC", "USD"⟩, CurrencyPair := "BTCUSD",
            Bids := [⟨2, 30, 0⟩, ⟨3, 20, 0⟩], Asks := [], LastUpdated := 0,
            AssetType := "SPOT" })])])], "exch"⟩]
        { ID := 0, Exchange := "exch", Item := "ORDERBOOK",
          Condition := ⟨">=", 0, true, false, 50⟩, Pair := ⟨"BTC", "USD"⟩, Asset := "SPOT",
          Action := "CONSOLE_PRINT", Executed := false }).2
      { Pair := ⟨"BTC", "USD"⟩, CurrencyPair := "BTCUSD",
        Bids := [⟨2, 30, 0⟩, ⟨3, 20, 0⟩], Asks := [], LastUpdated := 0,
        AssetType := "SPOT" } rfl]
  decide

/-! ### C2, C6, C10: registration -/

/-- C2 counterexample: with one event already registered (length 1), a valid
registration returns id 2, not the pre-insertion registry length 1. -/
theorem C2_counterexample :
    (events.Add [⟨"exch", true⟩] [events.defaultEvent] "exch" "PRICE"
      ⟨">", 1, false, false, 0⟩ ⟨"BTC", "USD"⟩ "SPOT" "CONSOLE_PRINT").1 = (2, none) ∧
    ([events.defaultEvent] : List events.Event).length = 1 ∧ (2 : Int) ≠ 1 :=
  ⟨by decide, rfl, by decide⟩

/-- C2 (amended): a successful Register (`events.Add`) assigns the new id as 0
when the registry was empty and as (pre-insertion length + 1) otherwise,
returns that id, and appends the new pending event; the registry is threaded
through unchanged otherwise. -/
theorem C2_add_id_assignment :
    ∀ (cfg : List events.ExchangeConfig) (evs : List events.Event)
      (exchange item : String) (condition : events.ConditionParams)
      (p : CurrencyPair) (asset : AssetType) (action : String)
      (pushes : List events.CommsEvent),
      events.IsValidEvent cfg exchange item condition action = (none, pushes) →
      events.Add cfg evs exchange item condition p asset action =
        ((if evs.length = 0 then 0 else (evs.length : Int) + 1, none),
         evs ++ [{ ID := if evs.length = 0 then 0 else (evs.length : Int) + 1,
                   Exchange := exchange, Item := item, Condition := condition, Pair := p,
                   Asset := asset, Action := action, Executed := false }], pushes) := by
  intro cfg evs exchange item condition p asset action pushes hval
  unfold events.Add
  rw [hval]

/-- Witness for C2: the amended id assignment evaluated on a one-event
registry yields id 2 and appends the event with that id. -/
theorem C2_add_id_assignment_witness :
    events.Add [⟨"exch", true⟩] [events.defaultEvent] "exch" "PRICE"
      ⟨">", 1, false, false, 0⟩ ⟨"BTC", "USD"⟩ "SPOT" "CONSOLE_PRINT" =
      ((2, none),
       [events.defaultEvent,
        { ID := 2, Exchange := "exch", Item := "PRICE",
          Condition := ⟨">", 1, false, false, 0⟩, Pair := ⟨"BTC", "USD"⟩, Asset := "SPOT",
          Action := "CONSOLE_PRINT", Executed := false }], []) := by
  rw [C2_add_id_assignment [⟨"exch", true⟩] [events.defaultEvent] "exch" "PRICE"
    ⟨">", 1, false, false, 0⟩ ⟨"BTC", "USD"⟩ "SPOT" "CONSOLE_PRINT" [] (by decide)]
  decide

/-- C6: registration validation errors in the code's precedence — disabled or
unconfigured exchange, unrecognized item, unrecognized operator, ORDERBOOK
with zero threshold notional (InvalidAction), PRICE with zero threshold price
(InvalidCondition) — and atomicity: on any validation error `Add` returns id 0
with that error and leaves the registry unchanged. -/
theorem C6_registration_validation :
    ∀ (cfg : List events.ExchangeConfig) (evs : List events.Event)
      (exchange item : String) (condition : events.ConditionParams)
      (p : CurrencyPair) (asset : AssetType) (action : String),
      (events.IsValidExchange cfg (events.StringToUpper exchange) = false →
        (events.IsValidEvent cfg exchange item condition action).1 =
          some events.errExchangeDisabled) ∧
      (events.IsValidExchange cfg (events.StringToUpper exchange) = true →
        events.IsValidItem (events.StringToUpper item) = false →
        (events.IsValidEvent cfg exchange item condition action).1 =
          some events.errInvalidItem) ∧
      (events.IsValidExchange cfg (events.StringToUpper exchange) = true →
        events.IsValidItem (events.StringToUpper item) = true →
        events.IsValidCondition condition.Condition = false →
        (events.IsValidEvent cfg exchange item condition action).1 =
          some events.errInvalidCondition) ∧
      (events.IsValidExchange cfg (events.StringToUpper exchange) = true →
        events.IsValidCondition condition.Condition = true →
        events.StringToUpper item = events.ItemOrderbook →
        condition.OrderbookAmount = 0 →
        (events.IsValidEvent cfg exchange item condition action).1 =
          some events.errInvalidAction) ∧
      (events.IsValidExchange cfg (events.StringToUpper exchange) = true →
        events.IsValidCondition condition.Condition = true →
        events.StringToUpper item = events.ItemPrice →
        condition.Price = 0 →
        (events.IsValidEvent cfg exchange item condition action).1 =
          some events.errInvalidCondition) ∧
      (∀ err pushes,
        events.IsValidEvent cfg exchange item condition action = (some err, pushes) →
        events.Add cfg evs exchange item condition p asset action =
          ((0, some err), evs, pushes)) := by
  intro cfg evs exchange item condition p asset action
  refine ⟨?_, ?_, ?_, ?_, ?_, ?_⟩
  · intro h
    unfold events.IsValidEvent
    simp [h]
  · intro h1 h2
    unfold events.IsValidEvent
    simp [h1, h2]
  · intro h1 h2 h3
    unfold events.IsValidEvent
    simp [h1, h2, h3]
  · intro h1 h3 hi hz
    have hvi : events.IsValidItem events.ItemOrderbook = true := by decide
    have hne : ¬ (events.ItemOrderbook = events.ItemPrice) := by decide
    unfold events.IsValidEvent
    rw [hi]
    simp [h1, h3, hvi, hne, hz]
  · intro h1 h3 hi hz
    have hvi : events.IsValidItem events.ItemPrice = true := by decide
    unfold events.IsValidEvent
    rw [hi]
    simp [h1, h3, hvi, hz]
  · intro err pushes h
    unfold events.Add
    rw [h]

/-- Witness for C6: each validation error and the atomicity clause evaluated
at concrete registrations. -/
theorem C6_registration_validation_witness :
    ((events.IsValidEvent [⟨"exch", true⟩] "other" "PRICE"
        ⟨">", 1, false, false, 0⟩ "CONSOLE_PRINT").1 = some events.errExchangeDisabled) ∧
    ((events.IsValidEvent [⟨"exch", true⟩] "exch" "FOO"
        ⟨">", 1, false, false, 0⟩ "CONSOLE_PRINT").1 = some events.errInvalidItem) ∧
    ((events.IsValidEvent [⟨"exch", true⟩] "exch" "PRICE"
        ⟨"<>", 1, false, false, 0⟩ "CONSOLE_PRINT").1 = some events.errInvalidCondition) ∧
    ((events.IsValidEvent [⟨"exch", true⟩] "exch" "ORDERBOOK"
        ⟨">", 0, true, false, 0⟩ "CONSOLE_PRINT").1 = some events.errInvalidAction) ∧
    ((events.IsValidEvent [⟨"exch", true⟩] "exch" "PRICE"
        ⟨">", 0, false, false, 0⟩ "CONSOLE_PRINT").1 = some events.errInvalidCondition) ∧
    (events.Add [⟨"exch", true⟩] [events.defaultEvent] "other" "PRICE"
        ⟨">", 1, false, false, 0⟩ ⟨"BTC", "USD"⟩ "SPOT" "CONSOLE_PRINT" =
      ((0, some events.errExchangeDisabled), [events.defaultEvent], [])) :=
  ⟨(C6_registration_validation [⟨"exch", true⟩] [] "other" "PRICE"
      ⟨">", 1, false, false, 0⟩ ⟨"BTC", "USD"⟩ "SPOT" "CONSOLE_PRINT").1 (by decide),
   (C6_registration_validation [⟨"exch", true⟩] [] "exch" "FOO"
      ⟨">", 1, false, false, 0⟩ ⟨"BTC", "USD"⟩ "SPOT" "CONSOLE_PRINT").2.1 (by decide)
      (by decide),
   (C6_registration_validation [⟨"exch", true⟩] [] "exch" "PRICE"
      ⟨"<>", 1, false, false, 0⟩ ⟨"BTC", "USD"⟩ "SPOT" "CONSOLE_PRINT").2.2.1 (by decide)
      (by decide) (by decide),
   (C6_registration_validation [⟨"exch", true⟩] [] "exch" "ORDERBOOK"
      ⟨">", 0, true, false, 0⟩ ⟨"BTC", "USD"⟩ "SPOT" "CONSOLE_PRINT").2.2.2.1 (by decide)
      (by decide) (by decide) (by decide),
   (C6_registration_validation [⟨"exch", true⟩] [] "exch" "PRICE"
      ⟨">", 0, false, false, 0⟩ ⟨"BTC", "USD"⟩ "SPOT" "CONSOLE_PRINT").2.2.2.2.1 (by decide)
      (by decide) (by decide) (by decide),
   (C6_registration_validation [⟨"exch", true⟩] [events.defaultEvent] "other" "PRICE"
      ⟨">", 1, false, false, 0⟩ ⟨"BTC", "USD"⟩ "SPOT" "CONSOLE_PRINT").2.2.2.2.2
      events.errExchangeDisabled [] (by decide)⟩

/-- C10 counterexample: the compound action `"SMS,BOGUS"`, whose target is not
a valid notification target, is ACCEPTED by validation (no error, so the event
would be registered), and validation itself pushes a comms event typed with
the bogus target — refuting both the rejection and the absence of side
effects. -/
theorem C10_counterexample :
    events.IsValidEvent [⟨"exch", true⟩] "exch" "PRICE" ⟨">", 1, false, false, 0⟩
      "SMS,BOGUS" = (none, [⟨"BOGUS", ""⟩]) ∧
    (events.Add [⟨"exch", true⟩] [] "exch" "PRICE" ⟨">", 1, false, false, 0⟩
      ⟨"BTC", "USD"⟩ "SPOT" "SMS,BOGUS").1.2 = none :=
  ⟨by decide, by decide⟩

/-- C10 (amended): when the earlier validations pass and the upper-cased
action contains a comma, registration succeeds iff the first comma token is
`SMS`; the target after the comma is never validated, and a target other than
`ALL` makes validation push a comms event typed with that target. -/
theorem C10_compound_action :
    ∀ (cfg : List events.ExchangeConfig) (exchange item : String)
      (condition : events.ConditionParams) (action : String),
      events.IsValidExchange cfg (events.StringToUpper exchange) = true →
      events.IsValidItem (events.StringToUpper item) = true →
      events.IsValidCondition condition.Condition = true →
      (events.StringToUpper item = events.ItemPrice → condition.Price ≠ 0) →
      (events.StringToUpper item = events.ItemOrderbook → condition.OrderbookAmount ≠ 0) →
      events.StringContains (events.StringToUpper action) "," = true →
      (((events.SplitStrings (events.StringToUpper action) ",").headD "" ≠
          events.ActionSMSNotify →
        events.IsValidEvent cfg exchange item condition action =
          (some events.errInvalidAction, [])) ∧
       ((events.SplitStrings (events.StringToUpper action) ",").headD "" =
          events.ActionSMSNotify →
        (events.SplitStrings (events.StringToUpper action) ",").getD 1 "" ≠ "ALL" →
        events.IsValidEvent cfg exchange item condition action =
          (none, [⟨(events.SplitStrings (events.StringToUpper action) ",").getD 1 "", ""⟩])) ∧
       ((events.SplitStrings (events.StringToUpper action) ",").headD "" =
          events.ActionSMSNotify →
        (events.SplitStrings (events.StringToUpper action) ",").getD 1 "" = "ALL" →
        events.IsValidEvent cfg exchange item condition action = (none, []))) := by
  intro cfg exchange item condition action h1 h2 h3 h4 h5 h6
  have hc1 : (decide (events.StringToUpper item = events.ItemPrice) &&
      decide (condition.Price = 0)) = false := by
    by_cases hip : events.StringToUpper item = events.ItemPrice
    · simp [hip, h4 hip]
    · simp [hip]
  have hc2 : (decide (events.StringToUpper item = events.ItemOrderbook) &&
      decide (condition.OrderbookAmount = 0)) = false := by
    by_cases hio : events.StringToUpper item = events.ItemOrderbook
    · simp [hio, h5 hio]
    · simp [hio]
  refine ⟨?_, ?_, ?_⟩
  · intro hsms
    rw [List.headD_eq_head?_getD] at hsms
    unfold events.IsValidEvent
    simp [h1, h2, h3, hc1, hc2, h6, hsms]
  · intro hsms htgt
    rw [List.headD_eq_head?_getD] at hsms
    rw [List.getD_eq_getElem?_getD] at htgt
    unfold events.IsValidEvent
    simp [h1, h2, h3, hc1, hc2, h6, hsms, htgt]
  · intro hsms htgt
    rw [List.headD_eq_head?_getD] at hsms
    rw [List.getD_eq_getElem?_getD] at htgt
    unfold events.IsValidEvent
    simp [h1, h2, h3, hc1, hc2, h6, hsms, htgt]

/-- Witness for C10: the three compound-action outcomes at concrete actions
`"FOO,ALL"`, `"SMS,BOGUS"` and `"SMS,ALL"`. -/
theorem C10_compound_action_witness :
    (events.IsValidEvent [⟨"exch", true⟩] "exch" "PRICE" ⟨">", 1, false, false, 0⟩
      "FOO,ALL" = (some events.errInvalidAction, [])) ∧
    (events.IsValidEvent [⟨"exch", true⟩] "exch" "PRICE" ⟨">", 1, false, false, 0⟩
      "SMS,BOGUS" = (none, [⟨"BOGUS", ""⟩])) ∧
    (events.IsValidEvent [⟨"exch", true⟩] "exch" "PRICE" ⟨">", 1, false, false, 0⟩
      "SMS,ALL" = (none, [])) :=
  ⟨(C10_compound_action [⟨"exch", true⟩] "exch" "PRICE" ⟨">", 1, false, false, 0⟩
      "FOO,ALL" (by decide) (by decide) (by decide) (fun _ => by decide)
      (fun hh => absurd hh (by decide)) (by decide)).1 (by decide),
   (C10_compound_action [⟨"exch", true⟩] "exch" "PRICE" ⟨">", 1, false, false, 0⟩
      "SMS,BOGUS" (by decide) (by decide) (by decide) (fun _ => by decide)
      (fun hh => absurd hh (by decide)) (by decide)).2.1 (by decide) (by decide),
   (C10_compound_action [⟨"exch", true⟩] "exch" "PRICE" ⟨">", 1, false, false, 0⟩
      "SMS,ALL" (by decide) (by decide) (by decide) (fun _ => by decide)
      (fun hh => absurd hh (by decide)) (by decide)).2.2 (by decide) (by decide)⟩

/-! ### C4: at-most-once execution in the manager loop -/

theorem managerTick_length (ts : Store ticker.Price) (os : Store orderbook.Base)
    (evs : List events.Event) : (events.managerTick ts os evs).length = evs.length := by
  simp [events.managerTick]

theorem managerRun_length (stores : Nat → Store ticker.Price × Store orderbook.Base)
    (evs : List events.Event) (n : Nat) :
    (events.managerRun stores evs n).length = evs.length := by
  induction n with
  | zero => rfl
  | succ k ih =>
    show (events.managerTick (stores k).1 (stores k).2
      (events.managerRun stores evs k)).length = evs.length
    rw [managerTick_length]
    exact ih

theorem managerTick_getD_lt (ts : Store ticker.Price) (os : Store orderbook.Base)
    (evs : List events.Event) (i : Nat) (hi : i < evs.length) :
    (events.managerTick ts os evs).getD i events.defaultEvent =
      (if !(evs.getD i events.defaultEvent).Executed then
        (if (events.CheckCondition ts os (evs.getD i events.defaultEvent)).1 then
          { evs.getD i events.defaultEvent with Executed := true }
        else evs.getD i events.defaultEvent)
      else evs.getD i events.defaultEvent) := by
  unfold events.managerTick
  rw [List.getD_eq_getElem?_getD, List.getElem?_map, List.getElem?_eq_getElem hi]
  rw [List.getD_eq_getElem?_getD, List.getElem?_eq_getElem hi]
  rfl

theorem managerTick_executed_mono (ts : Store ticker.Price) (os : Store orderbook.Base)
    (evs : List events.Event) (i : Nat)
    (h : (evs.getD i events.defaultEvent).Executed = true) :
    ((events.managerTick ts os evs).getD i events.defaultEvent).Executed = true := by
  by_cases hi : i < evs.length
  · rw [managerTick_getD_lt ts os evs i hi]
    rw [List.getD_eq_getElem?_getD] at h
    simp [h]
  · rw [List.getD_eq_getElem?_getD, List.getElem?_eq_none (le_of_not_lt hi)] at h
    exact absurd h (by simp [events.defaultEvent])

/-- C4: in the engine loop, an event that is pending at tick N and whose
condition evaluates successfully there is marked executed from tick N+1 on,
the flag is never reset, and the manager never evaluates
(calls `CheckCondition` on) that event on any later tick, whatever the store
states on those ticks. -/
theorem C4_at_most_once :
    ∀ (stores : Nat → Store ticker.Price × Store orderbook.Base)
      (evs : List events.Event) (i N : Nat),
      i < evs.length →
      ((events.managerRun stores evs N).getD i events.defaultEvent).Executed = false →
      (events.CheckCondition (stores N).1 (stores N).2
        ((events.managerRun stores evs N).getD i events.defaultEvent)).1 = true →
      ∀ m, N < m →
        ((events.managerRun stores evs m).getD i events.defaultEvent).Executed = true ∧
        events.evaluatesEvent (events.managerRun stores evs m) i = false := by
  intro stores evs i N hi hpend hsucc
  have hbase : ((events.managerRun stores evs (N + 1)).getD i
      events.defaultEvent).Executed = true := by
    show ((events.managerTick (stores N).1 (stores N).2
      (events.managerRun stores evs N)).getD i events.defaultEvent).Executed = true
    rw [managerTick_getD_lt _ _ _ i (by rw [managerRun_length]; exact hi)]
    rw [List.getD_eq_getElem?_getD] at hpend hsucc
    simp [hpend, hsucc]
  have hmono : ∀ m, N < m →
      ((events.managerRun stores evs m).getD i events.defaultEvent).Executed = true := by
    intro m
    induction m with
    | zero => omega
    | succ k ihk =>
      intro hm
      by_cases hk : N < k
      · show ((events.managerTick (stores k).1 (stores k).2
          (events.managerRun stores evs k)).getD i events.defaultEvent).Executed = true
        exact managerTick_executed_mono _ _ _ _ (ihk hk)
      · have hNk : k = N := by omega
        subst hNk
        exact hbase
  intro m hm
  refine ⟨hmono m hm, ?_⟩
  have hex := hmono m hm
  rw [List.getD_eq_getElem?_getD] at hex
  unfold events.evaluatesEvent
  simp [hex]

/-- Witness for C4: one PRICE event whose condition holds on tick 0 is
executed in the registry before tick 1 and is no longer evaluated there. -/
theorem C4_at_most_once_witness :
    ((events.managerRun
        (fun _ => ([⟨[("BTC", [("USD", [("SPOT",
          { Pair := ⟨"BTC", "USD"⟩, LastUpdated := 0, CurrencyPair := "BTCUSD", Last := 5,
            High := 0, Low := 0, Bid := 0, Ask := 0, Volume := 0,
            PriceATH := 0 })])])], "exch"⟩], []))
        [{ ID := 0, Exchange := "exch", Item := "PRICE",
           Condition := ⟨">", 3, false, false, 0⟩, Pair := ⟨"BTC", "USD"⟩, Asset := "SPOT",
           Action := "CONSOLE_PRINT", Executed := false }] 1).getD 0
      events.defaultEvent).Executed = true ∧
    events.evaluatesEvent
      (events.managerRun
        (fun _ => ([⟨[("BTC", [("USD", [("SPOT",
          { Pair := ⟨"BTC", "USD"⟩, LastUpdated := 0, CurrencyPair := "BTCUSD", Last := 5,
            High := 0, Low := 0, Bid := 0, Ask := 0, Volume := 0,
            PriceATH := 0 })])])], "exch"⟩], []))
        [{ ID := 0, Exchange := "exch", Item := "PRICE",
           Condition := ⟨">", 3, false, false, 0⟩, Pair := ⟨"BTC", "USD"⟩, Asset := "SPOT",
           Action := "CONSOLE_PRINT", Executed := false }] 1) 0 = false :=
  C4_at_most_once
    (fun _ => ([⟨[("BTC", [("USD", [("SPOT",
      { Pair := ⟨"BTC", "USD"⟩, LastUpdated := 0, CurrencyPair := "BTCUSD", Last := 5,
        High := 0, Low := 0, Bid := 0, Ask := 0, Volume := 0,
        PriceATH := 0 })])])], "exch"⟩], []))
    [{ ID := 0, Exchange := "exch", Item := "PRICE",
       Condition := ⟨">", 3, false, false, 0⟩, Pair := ⟨"BTC", "USD"⟩, Asset := "SPOT",
       Action := "CONSOLE_PRINT", Executed := false }] 0 0 (by decide) (by decide)
    (by decide) 1 (by decide)
